import Mathlib

/-!
Verification of the FC26 tournament progression engine.

The definitions below are a shallow embedding of the TypeScript source:
`src/lib/standings.ts` (standings computation), `src/lib/elimination.ts`
(per-round elimination for odd entrant counts), and the reducers of
`src/context/TournamentContext.tsx` (`setMatchScore`, `startKnockoutStage`,
`advanceToFinalStage`).  JavaScript numbers that hold scores are modelled
as `Int` (scores are only ever compared and added), `null` as `Option`,
and the in-place mutation of the React state as explicit state passing.
`Math.random()`-driven shuffles take an explicit stream of draws
(`rng : Nat → Nat`), one value per `Math.floor(Math.random() * (i + 1))`
call, reduced modulo `i + 1`.
-/

namespace FC26

/-- Match status, from `src/types` (`'pending' | 'played' | 'golden_goal'`). -/
inductive MatchStatus where
  | pending
  | played
  | golden_goal
deriving DecidableEq, Repr

/-- Knockout sub-stage, from `src/types`. -/
inductive KnockoutStage where
  | play_in
  | semi
  | final
  | third_place
deriving DecidableEq, Repr

/-- An entrant, from `src/types` (`Player`). -/
structure Player where
  id : String
  name : String
deriving DecidableEq, Repr

/-- A match, from `src/types` (`Match`).  `isGoldenGoal` is an optional
field in the source (`undefined` is falsy), modelled as a `Bool` that
defaults to `false`; `stage` is absent for group matches. -/
structure Game where
  id : String
  playerAId : String
  playerBId : String
  roundIndex : Int
  scoreA : Option Int
  scoreB : Option Int
  status : MatchStatus
  isGoldenGoal : Bool := false
  stage : Option KnockoutStage := none
deriving DecidableEq, Repr

/-- The per-player tally built in the `byPlayer` map of `computeStandings`. -/
structure RawStats where
  wins : Int
  draws : Int
  losses : Int
  goalsFor : Int
  goalsAgainst : Int
deriving DecidableEq, Repr

def RawStats.zero : RawStats := ⟨0, 0, 0, 0, 0⟩

/-- The body of the match loop of `computeStandings`
(`src/lib/standings.ts`): both sides' goal tallies are bumped and the
win/draw/loss counters updated; a golden-goal match never yields a draw
(its `else` branch credits side B).  Side A is updated first, then side B
on the result, which reproduces the source's mutation order (and its
behaviour when both ids coincide). -/
def tallyMatch (acc : String → RawStats) (m : Game) (sa sb : Int) : String → RawStats :=
  let accA := fun pid =>
    if pid = m.playerAId then
      let s := acc pid
      let s := { s with goalsFor := s.goalsFor + sa, goalsAgainst := s.goalsAgainst + sb }
      if m.isGoldenGoal then
        if sa > sb then { s with wins := s.wins + 1 } else { s with losses := s.losses + 1 }
      else
        if sa > sb then { s with wins := s.wins + 1 }
        else if sa < sb then { s with losses := s.losses + 1 }
        else { s with draws := s.draws + 1 }
    else acc pid
  fun pid =>
    if pid = m.playerBId then
      let s := accA pid
      let s := { s with goalsFor := s.goalsFor + sb, goalsAgainst := s.goalsAgainst + sa }
      if m.isGoldenGoal then
        if sa > sb then { s with losses := s.losses + 1 } else { s with wins := s.wins + 1 }
      else
        if sa > sb then { s with losses := s.losses + 1 }
        else if sa < sb then { s with wins := s.wins + 1 }
        else { s with draws := s.draws + 1 }
    else accA pid

/-- One step of the match loop of `computeStandings`: staged (knockout)
matches are skipped, as are unplayed matches and matches whose ids are
not both in the `byPlayer` map (i.e. not registered players). -/
def tallyStep (pids : List String) (acc : String → RawStats) (m : Game) : String → RawStats :=
  if m.stage ≠ none then acc
  else
    match m.scoreA, m.scoreB with
    | some sa, some sb =>
        if pids.contains m.playerAId ∧ pids.contains m.playerBId then
          tallyMatch acc m sa sb
        else acc
    | _, _ => acc

/-- The `byPlayer` accumulation of `computeStandings`: every registered
player starts at zero and the matches are folded in list order. -/
def statsAfter (players : List Player) (ms : List Game) : String → RawStats :=
  ms.foldl (tallyStep (players.map Player.id)) (fun _ => RawStats.zero)

/-- A standings row, from `src/types` (`StandingsRow`).  `isTied` is an
optional field in the source; absence is modelled as `false`. -/
structure StandingsRow where
  playerId : String
  playerName : String
  rank : Nat
  played : Int
  wins : Int
  draws : Int
  losses : Int
  goalsFor : Int
  goalsAgainst : Int
  goalDifference : Int
  points : Int
  isTied : Bool := false
deriving DecidableEq, Repr

/-- The `(points, goalDifference, goalsFor)` triple two rows are compared
and tie-flagged by. -/
def rowKey (r : StandingsRow) : Int × Int × Int :=
  (r.points, r.goalDifference, r.goalsFor)

/-- The lexicographic "comes first" order on `(points, GD, GF)` triples
induced by the sort comparator of `computeStandings` (all three
components descending). -/
def keyLe (k1 k2 : Int × Int × Int) : Prop :=
  k1.1 > k2.1 ∨
    (k1.1 = k2.1 ∧ (k1.2.1 > k2.2.1 ∨ (k1.2.1 = k2.2.1 ∧ k1.2.2 ≥ k2.2.2)))

instance : DecidablePred (fun k : (Int × Int × Int) × (Int × Int × Int) => keyLe k.1 k.2) :=
  fun _k => inferInstanceAs (Decidable (_ ∨ _))

/-- The sort comparator of `computeStandings` (descending points, then
goal difference, then goals for), expressed as the total `le` relation
that the comparator induces on rows.  JavaScript's `Array.prototype.sort`
is a stable sort, and a stable sort's output is uniquely determined by
the (total, transitive) comparator, so it is modelled by Mathlib's stable
`List.insertionSort` over this relation. -/
def RowLe (a b : StandingsRow) : Prop :=
  keyLe (rowKey a) (rowKey b)

instance : DecidableRel RowLe := fun _a _b =>
  inferInstanceAs (Decidable (_ ∨ _))

instance : IsTotal StandingsRow RowLe :=
  ⟨by intro a b; unfold RowLe keyLe; omega⟩

instance : IsTrans StandingsRow RowLe :=
  ⟨by intro a b c; unfold RowLe keyLe; omega⟩

theorem keyLe_antisymm {k1 k2 : Int × Int × Int}
    (h1 : keyLe k1 k2) (h2 : keyLe k2 k1) : k1 = k2 := by
  obtain ⟨p1, g1, f1⟩ := k1
  obtain ⟨p2, g2, f2⟩ := k2
  simp only [keyLe] at h1 h2
  simp only [Prod.mk.injEq]
  omega

/-- The rank-assignment loop at the end of `computeStandings`: `i` is the
0-based position, `rank` the current shared rank, and `prevEq` records
whether the previous row had an identical `(points, GD, GF)` triple (the
source sets `isTied` on both members of an equal adjacent pair). -/
def rankRows : Nat → Nat → Bool → List StandingsRow → List StandingsRow
  | _, _, _, [] => []
  | i, rank, prevEq, r :: rest =>
    let nextEq :=
      match rest with
      | [] => false
      | r2 :: _ => decide (rowKey r = rowKey r2)
    { r with rank := rank, isTied := prevEq || nextEq } ::
      rankRows (i + 1) (if nextEq then rank else i + 2) nextEq rest

/-- The unranked rows built by the `players.map` step of
`computeStandings` (one row per player, from the accumulated tally). -/
def baseRows (players : List Player) (ms : List Game) : List StandingsRow :=
  let stats := statsAfter players ms
  players.map (fun p =>
    let s := stats p.id
    ({ playerId := p.id, playerName := p.name, rank := 0,
       played := s.wins + s.draws + s.losses,
       wins := s.wins, draws := s.draws, losses := s.losses,
       goalsFor := s.goalsFor, goalsAgainst := s.goalsAgainst,
       goalDifference := s.goalsFor - s.goalsAgainst,
       points := s.wins * 3 + s.draws * 1 + s.losses * 0,
       isTied := false } : StandingsRow))

/-- `computeStandings` from `src/lib/standings.ts`: tally group-stage
(`stage`-unset) matches, build one row per player, sort by the comparator
(stably), then assign shared 1-based ranks and tie flags. -/
def computeStandings (players : List Player) (ms : List Game) : List StandingsRow :=
  rankRows 0 1 false ((baseRows players ms).insertionSort RowLe)

/-! ### Claim C1: which matches feed the standings tally -/

/-- Claim C1 as stated: `computeStandings` accumulates points, wins,
draws, losses and goals only from matches whose `stage` is unset AND that
are not golden-goal matches, so a played golden-goal match never changes
any entrant's points, wins or losses in the returned rows. -/
def c1ClaimStatement : Prop :=
  ∀ (players : List Player) (ms : List Game) (g : Game),
    g.isGoldenGoal = true → g.scoreA.isSome → g.scoreB.isSome →
    ∀ r ∈ computeStandings players (ms ++ [g]),
      ∀ r0 ∈ computeStandings players ms,
        r.playerId = r0.playerId →
          r.points = r0.points ∧ r.wins = r0.wins ∧ r.losses = r0.losses

def c1PlayerA : Player := ⟨"pa", "A"⟩

def c1PlayerB : Player := ⟨"pb", "B"⟩

def c1Golden : Game :=
  { id := "g", playerAId := "pa", playerBId := "pb", roundIndex := -1,
    scoreA := some 1, scoreB := some 0, status := MatchStatus.golden_goal,
    isGoldenGoal := true, stage := none }

/-- C1 is false on the code: a played stage-unset golden-goal match
(scores 1–0) gives its winner 1 win and 3 points in the standings,
because `computeStandings` filters on `stage` alone and its golden-goal
branch credits a win/loss. -/
theorem c1_counterexample : ¬ c1ClaimStatement := by
  intro h
  have h2 := h [c1PlayerA, c1PlayerB] [] c1Golden rfl rfl rfl
  revert h2
  decide

/-- C1 amended: `computeStandings` accumulates from exactly the matches
whose `stage` is unset, golden-goal matches included.  Staged (knockout)
matches never affect the standings, while a played stage-unset
golden-goal match between two distinct registered entrants adds its goals
to both sides and one win to the higher-scoring side (side B when the
scores are equal) plus one loss to the other, so it does change points,
wins and losses. -/
theorem c1_amended :
    (∀ (players : List Player) (ms : List Game),
        computeStandings players ms
          = computeStandings players (ms.filter (fun m => m.stage.isNone))) ∧
    (∀ (players : List Player) (ms : List Game) (g : Game) (sa sb : Int),
        g.stage = none → g.isGoldenGoal = true →
        g.scoreA = some sa → g.scoreB = some sb →
        (players.map Player.id).contains g.playerAId = true →
        (players.map Player.id).contains g.playerBId = true →
        g.playerAId ≠ g.playerBId →
          (statsAfter players (ms ++ [g]) g.playerAId
            = (let s0 := statsAfter players ms g.playerAId
               let s1 := { s0 with goalsFor := s0.goalsFor + sa,
                                   goalsAgainst := s0.goalsAgainst + sb }
               if sa > sb then { s1 with wins := s1.wins + 1 }
               else { s1 with losses := s1.losses + 1 }))
          ∧ (statsAfter players (ms ++ [g]) g.playerBId
            = (let s0 := statsAfter players ms g.playerBId
               let s1 := { s0 with goalsFor := s0.goalsFor + sb,
                                   goalsAgainst := s0.goalsAgainst + sa }
               if sa > sb then { s1 with losses := s1.losses + 1 }
               else { s1 with wins := s1.wins + 1 }))
          ∧ ∀ pid, pid ≠ g.playerAId → pid ≠ g.playerBId →
              statsAfter players (ms ++ [g]) pid = statsAfter players ms pid) := by
  constructor
  · intro players ms
    unfold computeStandings baseRows
    have : statsAfter players ms
        = statsAfter players (ms.filter (fun m => m.stage.isNone)) := by
      unfold statsAfter
      generalize (fun _ : String => RawStats.zero) = acc
      induction ms generalizing acc with
      | nil => rfl
      | cons m rest ih =>
        cases hst : m.stage with
        | none =>
          simp only [List.filter_cons, hst, Option.isNone_none, List.foldl_cons]
          exact ih _
        | some st =>
          have hskip : tallyStep (players.map Player.id) acc m = acc := by
            unfold tallyStep
            rw [if_pos (by simp [hst])]
          simp only [List.filter_cons, hst, Option.isNone_some, List.foldl_cons, hskip]
          exact ih _
    rw [this]
  · intro players ms g sa sb hstage hgg hsa hsb hca hcb hne
    have hfold : statsAfter players (ms ++ [g])
        = tallyStep (players.map Player.id) (statsAfter players ms) g := by
      unfold statsAfter
      rw [List.foldl_append]
      rfl
    have hstep : tallyStep (players.map Player.id) (statsAfter players ms) g
        = tallyMatch (statsAfter players ms) g sa sb := by
      unfold tallyStep
      rw [if_neg (by simp [hstage]), hsa, hsb]
      exact if_pos ⟨hca, hcb⟩
    rw [hfold, hstep]
    refine ⟨?_, ?_, ?_⟩
    · simp [tallyMatch, hgg, hne, Ne.symm hne]
    · simp [tallyMatch, hgg, hne, Ne.symm hne]
    · intro pid hpa hpb
      simp [tallyMatch, hpa, hpb]

/-- Witness for `c1_amended` at a concrete input: appending a played 1–0
stage-unset golden-goal match to an empty match list gives the winner one
win. -/
theorem c1_amended_witness :
    statsAfter [c1PlayerA, c1PlayerB] ([] ++ [c1Golden]) "pa"
      = { wins := 1, draws := 0, losses := 0, goalsFor := 1, goalsAgainst := 0 } := by
  have h := (c1_amended.2 [c1PlayerA, c1PlayerB] [] c1Golden 1 0
    rfl rfl rfl rfl (by decide) (by decide) (by decide)).1
  simpa using h

/-! ### Claim C9: shared ranks and tie flags -/

/-- Junk row used as the default of positional lookups. -/
def dRow : StandingsRow :=
  { playerId := "", playerName := "", rank := 0, played := 0, wins := 0, draws := 0,
    losses := 0, goalsFor := 0, goalsAgainst := 0, goalDifference := 0, points := 0 }

theorem rankRows_length (l : List StandingsRow) (i rk : Nat) (prevEq : Bool) :
    (rankRows i rk prevEq l).length = l.length := by
  induction l generalizing i rk prevEq with
  | nil => rfl
  | cons r rest ih => simp [rankRows, ih]

theorem rankRows_getD_key (l : List StandingsRow) (i rk : Nat) (prevEq : Bool)
    (n : Nat) :
    rowKey ((rankRows i rk prevEq l).getD n dRow) = rowKey (l.getD n dRow) := by
  induction l generalizing i rk prevEq n with
  | nil => rfl
  | cons r rest ih =>
    cases n with
    | zero => simp [rankRows, rowKey]
    | succ m => simpa [rankRows] using ih _ _ _ m

theorem rankRows_getD_rank_zero (l : List StandingsRow) (i rk : Nat) (prevEq : Bool)
    (h0 : 0 < l.length) :
    ((rankRows i rk prevEq l).getD 0 dRow).rank = rk := by
  cases l with
  | nil => simp at h0
  | cons r rest => simp [rankRows]

theorem rankRows_rank_adj (l : List StandingsRow) (i rk : Nat) (prevEq : Bool)
    (n : Nat) (hn : n + 1 < l.length) :
    ((rankRows i rk prevEq l).getD (n + 1) dRow).rank
      = if rowKey (l.getD n dRow) = rowKey (l.getD (n + 1) dRow)
        then ((rankRows i rk prevEq l).getD n dRow).rank
        else i + n + 2 := by
  induction l generalizing i rk prevEq n with
  | nil => simp at hn
  | cons r rest ih =>
    cases n with
    | zero =>
      cases rest with
      | nil => simp at hn
      | cons r2 rest2 =>
        by_cases hk : rowKey r = rowKey r2
        · simp [rankRows, hk, rankRows_getD_rank_zero]
        · simp [rankRows, hk, rankRows_getD_rank_zero]
    | succ m =>
      have hm : m + 1 < rest.length := by simpa using hn
      simp only [rankRows, List.getD_cons_succ]
      rw [ih _ _ _ m hm]
      have harith : i + 1 + m + 2 = i + (m + 1) + 2 := by omega
      rw [harith]

theorem rankRows_isTied (l : List StandingsRow) (i rk : Nat) (prevEq : Bool)
    (n : Nat) (hn : n < l.length) :
    ((rankRows i rk prevEq l).getD n dRow).isTied
      = ((if n = 0 then prevEq
          else decide (rowKey (l.getD (n - 1) dRow) = rowKey (l.getD n dRow)))
         || (decide (n + 1 < l.length)
             && decide (rowKey (l.getD n dRow) = rowKey (l.getD (n + 1) dRow)))) := by
  induction l generalizing i rk prevEq n with
  | nil => simp at hn
  | cons r rest ih =>
    cases n with
    | zero =>
      cases rest with
      | nil => simp [rankRows]
      | cons r2 rest2 => simp [rankRows]
    | succ m =>
      have hm : m < rest.length := by simpa using hn
      simp only [rankRows, List.getD_cons_succ]
      rw [ih _ _ _ m hm]
      cases m with
      | zero =>
        cases rest with
        | nil => simp at hm
        | cons r2 rest2 => simp
      | succ m2 => simp [Nat.succ_lt_succ_iff]

theorem ranked_keyLe {l : List StandingsRow} (hs : l.Sorted RowLe)
    {i j : Nat} (hij : i < j) (hj : j < (rankRows 0 1 false l).length) :
    keyLe (rowKey ((rankRows 0 1 false l).getD i dRow))
          (rowKey ((rankRows 0 1 false l).getD j dRow)) := by
  have hlen : (rankRows 0 1 false l).length = l.length := rankRows_length _ _ _ _
  have hj' : j < l.length := hlen ▸ hj
  have hi' : i < l.length := lt_trans hij hj'
  have hrel := List.pairwise_iff_getElem.mp hs i j hi' hj' hij
  rw [rankRows_getD_key, rankRows_getD_key,
    List.getD_eq_getElem _ _ hi', List.getD_eq_getElem _ _ hj']
  exact hrel

theorem ranked_contig {l : List StandingsRow} (hs : l.Sorted RowLe)
    {i m j : Nat} (him : i ≤ m) (hmj : m ≤ j)
    (hj : j < (rankRows 0 1 false l).length)
    (hk : rowKey ((rankRows 0 1 false l).getD i dRow)
        = rowKey ((rankRows 0 1 false l).getD j dRow)) :
    rowKey ((rankRows 0 1 false l).getD m dRow)
      = rowKey ((rankRows 0 1 false l).getD i dRow) := by
  rcases eq_or_lt_of_le him with rfl | h1
  · rfl
  rcases eq_or_lt_of_le hmj with rfl | h2
  · exact hk.symm
  · have l1 := ranked_keyLe hs h1 (lt_of_le_of_lt hmj hj)
    have l2 := ranked_keyLe hs h2 hj
    rw [← hk] at l2
    exact keyLe_antisymm l2 l1

theorem ranked_rank_le (l : List StandingsRow) :
    ∀ i, i < (rankRows 0 1 false l).length →
      ((rankRows 0 1 false l).getD i dRow).rank ≤ i + 1 := by
  intro i
  induction i with
  | zero =>
    intro h0
    have h0' : 0 < l.length := by rwa [rankRows_length] at h0
    rw [rankRows_getD_rank_zero _ _ _ _ h0']
  | succ n ih =>
    intro h
    have hn : n + 1 < l.length := by rwa [rankRows_length] at h
    rw [rankRows_rank_adj _ _ _ _ n hn]
    split
    · have := ih (by rw [rankRows_length]; omega)
      omega
    · omega

theorem ranked_rank_identity {l : List StandingsRow} (hs : l.Sorted RowLe) :
    ∀ i, i < (rankRows 0 1 false l).length →
      ((rankRows 0 1 false l).getD i dRow).rank
        + ((rankRows 0 1 false l).take (i + 1)).countP
            (fun r => decide (rowKey r = rowKey ((rankRows 0 1 false l).getD i dRow)))
        = i + 2 := by
  intro i
  induction i with
  | zero =>
    intro h0
    have h0l : 0 < l.length := by rwa [rankRows_length] at h0
    rw [rankRows_getD_rank_zero _ _ _ _ h0l]
    rw [List.take_succ, List.take_zero, List.getElem?_eq_getElem h0,
      List.getD_eq_getElem _ _ h0]
    simp
  | succ n ih =>
    intro h
    have hnl : n + 1 < l.length := by rwa [rankRows_length] at h
    have hn : n < (rankRows 0 1 false l).length := by rw [rankRows_length]; omega
    have htake : (rankRows 0 1 false l).take (n + 2)
        = (rankRows 0 1 false l).take (n + 1) ++ [(rankRows 0 1 false l).getD (n + 1) dRow] := by
      rw [List.take_succ, List.getElem?_eq_getElem h, List.getD_eq_getElem _ _ h]
      rfl
    rw [rankRows_rank_adj _ _ _ _ n hnl, htake, List.countP_append]
    by_cases hk : rowKey (l.getD n dRow) = rowKey (l.getD (n + 1) dRow)
    · rw [if_pos hk]
      have hkout : rowKey ((rankRows 0 1 false l).getD (n + 1) dRow)
          = rowKey ((rankRows 0 1 false l).getD n dRow) := by
        rw [rankRows_getD_key, rankRows_getD_key]
        exact hk.symm
      have hcongr : ((rankRows 0 1 false l).take (n + 1)).countP
            (fun r => decide (rowKey r = rowKey ((rankRows 0 1 false l).getD (n + 1) dRow)))
          = ((rankRows 0 1 false l).take (n + 1)).countP
            (fun r => decide (rowKey r = rowKey ((rankRows 0 1 false l).getD n dRow))) := by
        apply List.countP_congr
        intro x _
        rw [hkout]
      rw [hcongr]
      have hone : List.countP
            (fun r => decide (rowKey r = rowKey ((rankRows 0 1 false l).getD (n + 1) dRow)))
            [(rankRows 0 1 false l).getD (n + 1) dRow] = 1 := by
        simp
      rw [hone]
      have := ih hn
      omega
    · rw [if_neg hk]
      have hzero : ((rankRows 0 1 false l).take (n + 1)).countP
            (fun r => decide (rowKey r = rowKey ((rankRows 0 1 false l).getD (n + 1) dRow)))
          = 0 := by
        rw [List.countP_eq_zero]
        intro a ha
        obtain ⟨m, hm, hma⟩ := List.mem_take_iff_getElem.mp ha
        have hmlt : m < n + 1 := lt_of_lt_of_le hm (min_le_left _ _)
        have hmout : m < (rankRows 0 1 false l).length := by rw [rankRows_length]; omega
        have hka : rowKey a = rowKey ((rankRows 0 1 false l).getD m dRow) := by
          rw [List.getD_eq_getElem _ _ hmout, hma]
        simp only [decide_eq_true_eq]
        intro hcontra
        have hkm : rowKey ((rankRows 0 1 false l).getD m dRow)
            = rowKey ((rankRows 0 1 false l).getD (n + 1) dRow) := by
          rw [← hka, hcontra]
        have hmn : m ≤ n := Nat.lt_succ_iff.mp hmlt
        have hcontig := ranked_contig hs hmn (Nat.le_succ n) h hkm
        have e_n : rowKey ((rankRows 0 1 false l).getD n dRow)
            = rowKey (l.getD n dRow) := rankRows_getD_key _ _ _ _ _
        have e_n1 : rowKey ((rankRows 0 1 false l).getD (n + 1) dRow)
            = rowKey (l.getD (n + 1) dRow) := rankRows_getD_key _ _ _ _ _
        apply hk
        rw [← e_n, ← e_n1, hcontig]
        exact hkm
      have hone : List.countP
            (fun r => decide (rowKey r = rowKey ((rankRows 0 1 false l).getD (n + 1) dRow)))
            [(rankRows 0 1 false l).getD (n + 1) dRow] = 1 := by
        simp
      rw [hzero, hone]
      omega

theorem ranked_rank_eq_of_key_eq {l : List StandingsRow} (hs : l.Sorted RowLe) :
    ∀ j i, i ≤ j → j < (rankRows 0 1 false l).length →
      rowKey ((rankRows 0 1 false l).getD i dRow)
        = rowKey ((rankRows 0 1 false l).getD j dRow) →
      ((rankRows 0 1 false l).getD i dRow).rank
        = ((rankRows 0 1 false l).getD j dRow).rank := by
  intro j
  induction j with
  | zero =>
    intro i hi _ _
    have : i = 0 := by omega
    subst this
    rfl
  | succ n ih =>
    intro i hi hlen hkey
    rcases Nat.lt_succ_iff_lt_or_eq.mp (Nat.lt_succ_of_le hi) with hlt | rfl
    · have hin : i ≤ n := Nat.lt_succ_iff.mp (by omega)
      have hnl : n + 1 < l.length := by rwa [rankRows_length] at hlen
      have hcontig := ranked_contig hs hin (Nat.le_succ n) hlen hkey
      have hadj : rowKey (l.getD n dRow) = rowKey (l.getD (n + 1) dRow) := by
        rw [← rankRows_getD_key l 0 1 false n, ← rankRows_getD_key l 0 1 false (n + 1)]
        rw [hcontig, hkey]
      rw [rankRows_rank_adj _ _ _ _ n hnl, if_pos hadj]
      exact ih i hin (by rw [rankRows_length]; omega) hcontig.symm
    · rfl

theorem ranked_rank_lt_of_key_ne {l : List StandingsRow} :
    ∀ j i, i < j → j < (rankRows 0 1 false l).length →
      rowKey ((rankRows 0 1 false l).getD i dRow)
        ≠ rowKey ((rankRows 0 1 false l).getD j dRow) →
      ((rankRows 0 1 false l).getD i dRow).rank
        < ((rankRows 0 1 false l).getD j dRow).rank := by
  intro j
  induction j with
  | zero => omega
  | succ n ih =>
    intro i hi hlen hkey
    have hnl : n + 1 < l.length := by rwa [rankRows_length] at hlen
    have hn : n < (rankRows 0 1 false l).length := by rw [rankRows_length]; omega
    have hile : ((rankRows 0 1 false l).getD i dRow).rank ≤ i + 1 :=
      ranked_rank_le l i (by omega)
    rw [rankRows_rank_adj _ _ _ _ n hnl]
    by_cases hadj : rowKey (l.getD n dRow) = rowKey (l.getD (n + 1) dRow)
    · rw [if_pos hadj]
      have hadj' : rowKey ((rankRows 0 1 false l).getD n dRow)
          = rowKey ((rankRows 0 1 false l).getD (n + 1) dRow) := by
        rw [rankRows_getD_key, rankRows_getD_key]
        exact hadj
      rcases Nat.lt_succ_iff_lt_or_eq.mp hi with hlt | rfl
      · exact ih i hlt hn (fun hc => hkey (hc.trans hadj'))
      · exact absurd hadj' hkey
    · rw [if_neg hadj]
      omega

theorem ranked_tied_of_key_eq {l : List StandingsRow} (hs : l.Sorted RowLe)
    {i j : Nat} (hij : i < j) (hj : j < (rankRows 0 1 false l).length)
    (hkey : rowKey ((rankRows 0 1 false l).getD i dRow)
        = rowKey ((rankRows 0 1 false l).getD j dRow)) :
    ((rankRows 0 1 false l).getD i dRow).isTied = true
      ∧ ((rankRows 0 1 false l).getD j dRow).isTied = true := by
  have hjl : j < l.length := by rwa [rankRows_length] at hj
  constructor
  · have hi1 : i + 1 ≤ j := hij
    have hnext := ranked_contig hs (Nat.le_succ i) hi1 hj hkey
    have hnextl : rowKey (l.getD i dRow) = rowKey (l.getD (i + 1) dRow) := by
      rw [← rankRows_getD_key l 0 1 false i, ← rankRows_getD_key l 0 1 false (i + 1)]
      exact hnext.symm
    have h1l : i + 1 < l.length := by omega
    rw [rankRows_isTied _ _ _ _ i (by omega)]
    simp only [Bool.or_eq_true, Bool.and_eq_true, decide_eq_true_eq]
    right
    exact ⟨h1l, hnextl⟩
  · have hprev := ranked_contig hs (by omega : i ≤ j - 1) (by omega : j - 1 ≤ j) hj hkey
    have hprevl : rowKey (l.getD (j - 1) dRow) = rowKey (l.getD j dRow) := by
      rw [← rankRows_getD_key l 0 1 false (j - 1), ← rankRows_getD_key l 0 1 false j]
      exact hprev.trans hkey
    have hj0 : ¬ (j = 0) := by omega
    rw [rankRows_isTied _ _ _ _ j hjl, if_neg hj0]
    simp only [Bool.or_eq_true, Bool.and_eq_true, decide_eq_true_eq]
    left
    exact hprevl

theorem ranked_not_tied {l : List StandingsRow} {i : Nat}
    (hi : i < (rankRows 0 1 false l).length)
    (huniq : ∀ j, j < (rankRows 0 1 false l).length → j ≠ i →
        rowKey ((rankRows 0 1 false l).getD j dRow)
          ≠ rowKey ((rankRows 0 1 false l).getD i dRow)) :
    ((rankRows 0 1 false l).getD i dRow).isTied = false := by
  have hil : i < l.length := by rwa [rankRows_length] at hi
  rw [rankRows_isTied _ _ _ _ i hil]
  have hfst : (if i = 0 then false
      else decide (rowKey (l.getD (i - 1) dRow) = rowKey (l.getD i dRow))) = false := by
    by_cases h0 : i = 0
    · simp [h0]
    · rw [if_neg h0]
      have hne := huniq (i - 1) (by rw [rankRows_length]; omega) (by omega)
      rw [← rankRows_getD_key l 0 1 false (i - 1), ← rankRows_getD_key l 0 1 false i]
      simpa using hne
  have hsnd : (decide (i + 1 < l.length)
      && decide (rowKey (l.getD i dRow) = rowKey (l.getD (i + 1) dRow))) = false := by
    by_cases h1 : i + 1 < l.length
    · have hne := huniq (i + 1) (by rw [rankRows_length]; omega) (by omega)
      rw [← rankRows_getD_key l 0 1 false i, ← rankRows_getD_key l 0 1 false (i + 1)]
      simp only [Bool.and_eq_false_iff]
      right
      rw [decide_eq_false_iff_not]
      exact fun hc => hne hc.symm
    · simp [h1]
  rw [hfst, hsnd]
  rfl

/-- Claim C9: in the standings returned by `computeStandings`, all
entrants whose `(points, goalDifference, goalsFor)` triple is identical
receive the same 1-based rank and are flagged `isTied = true`; entrants
whose triple differs receive distinct ranks; an entrant whose triple is
unique is not flagged; ranks are 1-based; and when position `i + 1`
starts a new distinct group, its rank equals the previous group's shared
rank plus that group's size (the number of rows among the first `i + 1`
carrying the previous key). -/
theorem c9_shared_ranks (players : List Player) (ms : List Game) :
    (∀ i j, i < (computeStandings players ms).length →
        j < (computeStandings players ms).length →
        rowKey ((computeStandings players ms).getD i dRow)
          = rowKey ((computeStandings players ms).getD j dRow) →
        ((computeStandings players ms).getD i dRow).rank
          = ((computeStandings players ms).getD j dRow).rank)
    ∧ (∀ i j, i < (computeStandings players ms).length →
        j < (computeStandings players ms).length → i ≠ j →
        rowKey ((computeStandings players ms).getD i dRow)
          = rowKey ((computeStandings players ms).getD j dRow) →
        ((computeStandings players ms).getD i dRow).isTied = true
          ∧ ((computeStandings players ms).getD j dRow).isTied = true)
    ∧ (∀ i j, i < (computeStandings players ms).length →
        j < (computeStandings players ms).length →
        rowKey ((computeStandings players ms).getD i dRow)
          ≠ rowKey ((computeStandings players ms).getD j dRow) →
        ((computeStandings players ms).getD i dRow).rank
          ≠ ((computeStandings players ms).getD j dRow).rank)
    ∧ (∀ i, i < (computeStandings players ms).length →
        (∀ j, j < (computeStandings players ms).length → j ≠ i →
            rowKey ((computeStandings players ms).getD j dRow)
              ≠ rowKey ((computeStandings players ms).getD i dRow)) →
        ((computeStandings players ms).getD i dRow).isTied = false)
    ∧ (∀ i, i < (computeStandings players ms).length →
        1 ≤ ((computeStandings players ms).getD i dRow).rank)
    ∧ (∀ i, i + 1 < (computeStandings players ms).length →
        rowKey ((computeStandings players ms).getD i dRow)
          ≠ rowKey ((computeStandings players ms).getD (i + 1) dRow) →
        ((computeStandings players ms).getD (i + 1) dRow).rank
          = ((computeStandings players ms).getD i dRow).rank
            + ((computeStandings players ms).take (i + 1)).countP
                (fun r => decide (rowKey r
                    = rowKey ((computeStandings players ms).getD i dRow)))) := by
  have hs : ((baseRows players ms).insertionSort RowLe).Sorted RowLe :=
    List.sorted_insertionSort RowLe (baseRows players ms)
  rw [show computeStandings players ms
      = rankRows 0 1 false ((baseRows players ms).insertionSort RowLe) from rfl]
  refine ⟨?_, ?_, ?_, ?_, ?_, ?_⟩
  · intro i j hi hj hk
    rcases lt_trichotomy i j with h | h | h
    · exact ranked_rank_eq_of_key_eq hs j i (le_of_lt h) hj hk
    · rw [h]
    · exact (ranked_rank_eq_of_key_eq hs i j (le_of_lt h) hi hk.symm).symm
  · intro i j hi hj hne hk
    rcases lt_or_gt_of_ne hne with h | h
    · exact ranked_tied_of_key_eq hs h hj hk
    · exact (ranked_tied_of_key_eq hs h hi hk.symm).symm
  · intro i j hi hj hk
    rcases lt_trichotomy i j with h | h | h
    · exact Nat.ne_of_lt (ranked_rank_lt_of_key_ne j i h hj hk)
    · exact absurd (h ▸ rfl) hk
    · exact Nat.ne_of_gt (ranked_rank_lt_of_key_ne i j h hi (Ne.symm hk))
  · intro i hi huniq
    exact ranked_not_tied hi huniq
  · intro i hi
    have hid := ranked_rank_identity hs i hi
    have hcle := List.countP_le_length
      (fun r => decide (rowKey r
          = rowKey ((rankRows 0 1 false ((baseRows players ms).insertionSort RowLe)).getD i dRow)))
      (l := (rankRows 0 1 false ((baseRows players ms).insertionSort RowLe)).take (i + 1))
    have hlt : ((rankRows 0 1 false ((baseRows players ms).insertionSort RowLe)).take
        (i + 1)).length ≤ i + 1 := by
      rw [List.length_take]
      omega
    omega
  · intro i hi1 hk
    have hnl : i + 1 < ((baseRows players ms).insertionSort RowLe).length := by
      rwa [rankRows_length] at hi1
    have hkl : ¬ (rowKey (((baseRows players ms).insertionSort RowLe).getD i dRow)
        = rowKey (((baseRows players ms).insertionSort RowLe).getD (i + 1) dRow)) := by
      rw [← rankRows_getD_key ((baseRows players ms).insertionSort RowLe) 0 1 false i,
        ← rankRows_getD_key ((baseRows players ms).insertionSort RowLe) 0 1 false (i + 1)]
      exact hk
    have hadj := rankRows_rank_adj ((baseRows players ms).insertionSort RowLe) 0 1 false i hnl
    rw [if_neg hkl] at hadj
    have hid := ranked_rank_identity hs i (by rw [rankRows_length]; omega)
    omega

def c9P1 : Player := ⟨"q1", "Q1"⟩

def c9P2 : Player := ⟨"q2", "Q2"⟩

def c9P3 : Player := ⟨"q3", "Q3"⟩

def c9M : Game :=
  { id := "m0", playerAId := "q1", playerBId := "q2", roundIndex := 0,
    scoreA := some 2, scoreB := some 0, status := MatchStatus.played }

/-- Witness for `c9_shared_ranks`: with one played 2–0 match the winner's
rank differs from the loser's, and with no matches all three entrants are
flagged as tied. -/
theorem c9_shared_ranks_witness :
    ((computeStandings [c9P1, c9P2, c9P3] [c9M]).getD 0 dRow).rank
      ≠ ((computeStandings [c9P1, c9P2, c9P3] [c9M]).getD 2 dRow).rank
    ∧ ((computeStandings [c9P1, c9P2, c9P3] []).getD 0 dRow).isTied = true := by
  constructor
  · exact (c9_shared_ranks [c9P1, c9P2, c9P3] [c9M]).2.2.1 0 2
      (by decide) (by decide) (by decide)
  · exact (((c9_shared_ranks [c9P1, c9P2, c9P3] []).2.1 0 2
      (by decide) (by decide) (by decide) (by decide))).1

/-! ### Elimination helpers, from `src/lib/elimination.ts` -/

/-- Elimination reason, from `src/types` (`RoundElimination.reason`). -/
inductive ElimReason where
  | lowest_points
  | bye
  | worst_performance
deriving DecidableEq, Repr

/-- The result record of `determineElimination`. -/
structure Elimination where
  playerId : String
  reason : ElimReason
deriving DecidableEq, Repr

/-- One step of the rotation loop of `getPlayerWithBye`
(`rest.unshift(rest.pop()!)`): move the last element to the front.  The
synthetic `'__BYE__'` slot is modelled as `none`. -/
def rotOnce (l : List (Option String)) : List (Option String) :=
  match l.getLast? with
  | none => l
  | some x => x :: l.dropLast

/-- `getPlayerWithBye` from `src/lib/elimination.ts`: among the players
still active, append the synthetic bye slot, rotate the tail (the head
stays fixed) once per round, pair position `i` with position
`count - 1 - i`, and return the player paired with the bye slot.  An even
active count means no bye. -/
def getPlayerWithBye (players : List Player) (roundIndex : Int)
    (eliminatedPlayerIds : List String) : Option Player :=
  let activePlayers := players.filter (fun p => ¬ eliminatedPlayerIds.contains p.id)
  if activePlayers.length % 2 = 0 then none
  else
    let rotating : List (Option String) :=
      activePlayers.map (fun p => some p.id) ++ [none]
    let count := rotating.length
    let rotated :=
      match rotating with
      | [] => []
      | fixed :: rest => fixed :: rotOnce^[roundIndex.toNat] rest
    match (List.range (count / 2)).findSome? (fun i =>
        match rotated.getD i none, rotated.getD (count - 1 - i) none with
        | none, some b => some b
        | some a, none => some a
        | _, _ => none) with
    | none => none
    | some bid => activePlayers.find? (fun p => p.id = bid)

/-- A player's round-local `(points, goalsFor, goalDifference)` entry of
the `roundStandings` array built by `determineElimination`. -/
structure RoundScore where
  playerId : String
  points : Int
  goalsFor : Int
  goalDifference : Int
deriving DecidableEq, Repr

/-- The per-player accumulation loop of `determineElimination`: points
(3/1/0), goals for and goal difference over the given round's matches
only. -/
def roundScoreOf (roundMatches : List Game) (pid : String) : RoundScore :=
  let acc := roundMatches.foldl
    (fun (acc : Int × Int × Int) m =>
      match m.scoreA, m.scoreB with
      | some sa, some sb =>
          if m.playerAId = pid then
            (acc.1 + (if sa > sb then 3 else if sa = sb then 1 else 0),
             acc.2.1 + sa, acc.2.2 + sb)
          else if m.playerBId = pid then
            (acc.1 + (if sb > sa then 3 else if sa = sb then 1 else 0),
             acc.2.1 + sb, acc.2.2 + sa)
          else acc
      | _, _ => acc)
    (0, 0, 0)
  { playerId := pid, points := acc.1, goalsFor := acc.2.1,
    goalDifference := acc.2.1 - acc.2.2 }

/-- The ascending comparator `determineElimination` sorts round standings
by: points, then goal difference, then goals for (all ascending).  As for
the standings sort, the source's stable `Array.prototype.sort` is
modelled by the stable `List.insertionSort`. -/
def RSLe (a b : RoundScore) : Prop :=
  a.points < b.points ∨
    (a.points = b.points ∧ (a.goalDifference < b.goalDifference ∨
      (a.goalDifference = b.goalDifference ∧ a.goalsFor ≤ b.goalsFor)))

instance : DecidableRel RSLe := fun _a _b =>
  inferInstanceAs (Decidable (_ ∨ _))

instance : IsTotal RoundScore RSLe :=
  ⟨by intro a b; unfold RSLe; omega⟩

instance : IsTrans RoundScore RSLe :=
  ⟨by intro a b c; unfold RSLe; omega⟩

/-- `determineElimination` from `src/lib/elimination.ts`: only for an odd
starting count with at least two active players; eliminate the bye player
of this round's rotation if they are not already out, otherwise the worst
performer of this round's matches by `(points asc, GD asc, GF asc)`. -/
def determineElimination (players : List Player) (ms : List Game) (roundIndex : Int)
    (eliminatedPlayerIds : List String) : Option Elimination :=
  let activePlayers := players.filter (fun p => ¬ eliminatedPlayerIds.contains p.id)
  let startedWithOdd := players.length % 2 = 1
  if ¬ startedWithOdd ∨ activePlayers.length ≤ 1 then none
  else
    let roundMatches := ms.filter (fun m =>
      m.roundIndex = roundIndex ∧ m.stage = none ∧ m.isGoldenGoal = false)
    let roundStandings := activePlayers.map (fun p => roundScoreOf roundMatches p.id)
    let sorted := roundStandings.insertionSort RSLe
    let worst : Option Elimination :=
      match sorted.head? with
      | none => none
      | some worstPlayer =>
          if ¬ eliminatedPlayerIds.contains worstPlayer.playerId then
            some ⟨worstPlayer.playerId, ElimReason.worst_performance⟩
          else none
    match getPlayerWithBye players roundIndex eliminatedPlayerIds with
    | some byePlayer =>
        if ¬ eliminatedPlayerIds.contains byePlayer.id then
          some ⟨byePlayer.id, ElimReason.bye⟩
        else worst
    | none => worst

/-! ### Tournament state and `setMatchScore`, from
`src/context/TournamentContext.tsx` -/

/-- A `roundEliminations` entry, from `src/types` (`RoundElimination`). -/
structure RoundElim where
  roundIndex : Int
  eliminatedPlayerId : String
  reason : ElimReason
deriving DecidableEq, Repr

/-- The `TournamentState` record of `TournamentContext.tsx`.
`knockoutPlayerCount` is `number | null` (only ever set to a value ≥ 2 by
the reducers) and `knockoutSeeds` is `string[] | null`. -/
structure TournamentState where
  players : List Player
  «matches» : List Game
  knockoutPlayerCount : Option Nat
  knockoutSeeds : Option (List String)
  roundEliminations : List RoundElim
deriving DecidableEq, Repr

/-- Junk match used as the default of positional lookups. -/
def dGame : Game :=
  { id := "", playerAId := "", playerBId := "", roundIndex := 0,
    scoreA := none, scoreB := none, status := MatchStatus.pending }

/-- The two semifinal matches created once a single bottom-bracket winner
is known (`ko-semi1`: top seed vs the play-in winner, `ko-semi2`: second
vs third seed), as built at several places of `TournamentContext.tsx`. -/
def mkSemis (s0 s1 s2 w : String) : List Game :=
  [{ id := "ko-semi1", playerAId := s0, playerBId := w, roundIndex := -10,
     scoreA := none, scoreB := none, status := MatchStatus.pending,
     stage := some KnockoutStage.semi },
   { id := "ko-semi2", playerAId := s1, playerBId := s2, roundIndex := -10,
     scoreA := none, scoreB := none, status := MatchStatus.pending,
     stage := some KnockoutStage.semi }]

/-- The next-round play-in pairing loop of the 7+ case (players paired
two at a time; an unpaired trailing player carries over), with ids
`ko-playin-<startIdx + j>`. -/
def buildPlayInRound (startIdx : Nat) (ids : List String) : List Game :=
  (List.range (ids.length / 2)).map (fun j =>
    { id := "ko-playin-" ++ toString (startIdx + j),
      playerAId := ids.getD (2 * j) "", playerBId := ids.getD (2 * j + 1) "",
      roundIndex := -10, scoreA := none, scoreB := none,
      status := MatchStatus.pending, stage := some KnockoutStage.play_in })

/-- The `roundEliminations` entries appended by the group-stage
elimination block of `setMatchScore` (empty when the block does not
fire): for an odd starting player count, once the scored round is
complete, not yet processed, and more than one player was still active at
its start, the single entry chosen by `determineElimination`.  `s` is the
pre-update state the source closure reads `players` and
`roundEliminations` from; `next` carries the updated match list. -/
def elimEntries (s : TournamentState) (mtch : Game) (next : TournamentState) :
    List RoundElim :=
  if (mtch.stage = none ∧ mtch.roundIndex ≥ 0) ∧ s.players.length % 2 = 1 then
    let roundIndex := mtch.roundIndex
    let roundMatches := next.matches.filter (fun m =>
      m.roundIndex = roundIndex ∧ m.stage = none ∧ m.isGoldenGoal = false)
    let roundComplete := roundMatches.all (fun m => m.scoreA.isSome && m.scoreB.isSome)
    if roundComplete then
      let eliminatedBeforeRound := (s.roundEliminations.filter
        (fun e => e.roundIndex < roundIndex)).map (fun e => e.eliminatedPlayerId)
      let activePlayersAtRoundStart := s.players.filter
        (fun p => ¬ eliminatedBeforeRound.contains p.id)
      let alreadyEliminatedThisRound := s.roundEliminations.any
        (fun e => e.roundIndex = roundIndex)
      if ¬ alreadyEliminatedThisRound ∧ activePlayersAtRoundStart.length > 1 then
        match determineElimination s.players next.matches roundIndex eliminatedBeforeRound with
        | some elimination =>
            [{ roundIndex := roundIndex,
               eliminatedPlayerId := elimination.playerId,
               reason := if elimination.reason = ElimReason.bye then ElimReason.bye
                         else ElimReason.worst_performance }]
        | none => []
      else []
    else []
  else []

/-- The group-stage elimination block of `setMatchScore`: append the
entries of `elimEntries` to the pre-update `s.roundEliminations` (which
the only call site passes unchanged inside `next`, so the no-op branches
coincide with the source's `return next`). -/
def elimStep (s : TournamentState) (mtch : Game) (next : TournamentState) : TournamentState :=
  { next with roundEliminations := s.roundEliminations ++ elimEntries s mtch next }

/-- The matches created by the play-in advancement block of
`setMatchScore` (empty when the block does not fire): it fires when the
scored match is a play-in, the knockout configuration is set, and all
play-ins are played, with its per-`knockoutPlayerCount` cases. -/
def playInNewMatches (s : TournamentState) (mtch : Game) (next : TournamentState) :
    List Game :=
  if mtch.stage ≠ some KnockoutStage.play_in then []
  else
    match s.knockoutSeeds, s.knockoutPlayerCount with
    | some seeds, some kc =>
      if kc = 0 then []
      else
        let playInMatches := next.matches.filter (fun m => m.stage = some KnockoutStage.play_in)
        let allPlayInPlayed := playInMatches.all (fun m => m.scoreA.isSome && m.scoreB.isSome)
        let hasSemi := next.matches.any (fun m => m.stage = some KnockoutStage.semi)
        let hasFinal := next.matches.any (fun m => m.stage = some KnockoutStage.final)
        if ¬ allPlayInPlayed then []
        else
          let playInWinners := playInMatches.map (fun m =>
            if m.scoreA.getD 0 > m.scoreB.getD 0 then m.playerAId else m.playerBId)
          if kc = 3 ∧ ¬ hasFinal then
            [{ id := "ko-final", playerAId := seeds.getD 0 "",
               playerBId := playInWinners.getD 0 "", roundIndex := -11,
               scoreA := none, scoreB := none, status := MatchStatus.pending,
               stage := some KnockoutStage.final }]
          else if kc = 5 ∧ ¬ hasSemi then
            if playInWinners.length = 1 then
              mkSemis (seeds.getD 0 "") (seeds.getD 1 "") (seeds.getD 2 "")
                (playInWinners.getD 0 "")
            else []
          else if kc = 6 then
            let playedPlayerIds := playInMatches.flatMap (fun m => [m.playerAId, m.playerBId])
            let allBottomPlayers := seeds.drop 3
            let remainingPlayers := allBottomPlayers.filter
              (fun pid => ¬ playedPlayerIds.contains pid)
            if playInWinners.length = 1 ∧ remainingPlayers.length = 1 then
              [{ id := "ko-playin-1", playerAId := seeds.getD 3 "",
                 playerBId := playInWinners.getD 0 "", roundIndex := -10,
                 scoreA := none, scoreB := none, status := MatchStatus.pending,
                 stage := some KnockoutStage.play_in }]
            else if playInWinners.length = 1 ∧ remainingPlayers.length = 0 then
              mkSemis (seeds.getD 0 "") (seeds.getD 1 "") (seeds.getD 2 "")
                (playInWinners.getD 0 "")
            else []
          else if kc ≥ 7 then
            let bottomCount := kc - 3
            if bottomCount > 2 ∧ playInWinners.length > 1 then
              let playedPlayerIds := playInMatches.flatMap (fun m => [m.playerAId, m.playerBId])
              let allBottomPlayers := seeds.drop 3
              let remainingPlayers := allBottomPlayers.filter
                (fun pid => ¬ playedPlayerIds.contains pid)
              let nextRoundPlayers := playInWinners ++ remainingPlayers
              if nextRoundPlayers.length > 1 then
                let nextRoundMatches := buildPlayInRound playInMatches.length nextRoundPlayers
                if nextRoundMatches.length > 0 then nextRoundMatches
                else if nextRoundPlayers.length = 1 then
                  mkSemis (seeds.getD 0 "") (seeds.getD 1 "") (seeds.getD 2 "")
                    (nextRoundPlayers.getD 0 "")
                else []
              else if nextRoundPlayers.length = 1 then
                mkSemis (seeds.getD 0 "") (seeds.getD 1 "") (seeds.getD 2 "")
                  (nextRoundPlayers.getD 0 "")
              else []
            else if playInWinners.length = 1 ∧ bottomCount = 2 then
              mkSemis (seeds.getD 0 "") (seeds.getD 1 "") (seeds.getD 2 "")
                (playInWinners.getD 0 "")
            else []
          else []
    | _, _ => []

/-- The play-in advancement block of `setMatchScore`: append the matches
of `playInNewMatches`. -/
def playInAdvanceStep (s : TournamentState) (mtch : Game) (next : TournamentState) :
    TournamentState :=
  { next with «matches» := next.matches ++ playInNewMatches s mtch next }

/-- The matches created by the semifinal advancement block of
`setMatchScore` (empty when the block does not fire): when the scored
match is a semifinal, both semifinals are played and no final exists yet,
the final (winner vs winner) and the third-place match (loser vs loser)
are created. -/
def semiNewMatches (s : TournamentState) (mtch : Game) (next : TournamentState) :
    List Game :=
  if mtch.stage = some KnockoutStage.semi ∧ s.knockoutSeeds.isSome then
    let semis := next.matches.filter (fun m => m.stage = some KnockoutStage.semi)
    let bothPlayed := semis.all (fun m => m.scoreA.isSome && m.scoreB.isSome)
    let hasFinal := next.matches.any (fun m => m.stage = some KnockoutStage.final)
    if bothPlayed ∧ ¬ hasFinal ∧ semis.length ≥ 2 then
      let m0 := semis.getD 0 dGame
      let m1 := semis.getD 1 dGame
      let winner1 := if m0.scoreA.getD 0 > m0.scoreB.getD 0 then m0.playerAId else m0.playerBId
      let loser1 := if m0.scoreA.getD 0 > m0.scoreB.getD 0 then m0.playerBId else m0.playerAId
      let winner2 := if m1.scoreA.getD 0 > m1.scoreB.getD 0 then m1.playerAId else m1.playerBId
      let loser2 := if m1.scoreA.getD 0 > m1.scoreB.getD 0 then m1.playerBId else m1.playerAId
      [{ id := "ko-final", playerAId := winner1, playerBId := winner2,
         roundIndex := -11, scoreA := none, scoreB := none,
         status := MatchStatus.pending, stage := some KnockoutStage.final },
       { id := "ko-third", playerAId := loser1, playerBId := loser2,
         roundIndex := -11, scoreA := none, scoreB := none,
         status := MatchStatus.pending, stage := some KnockoutStage.third_place }]
    else []
  else []

/-- The semifinal advancement block of `setMatchScore`: append the
matches of `semiNewMatches`. -/
def semiAdvanceStep (s : TournamentState) (mtch : Game) (next : TournamentState) :
    TournamentState :=
  { next with «matches» := next.matches ++ semiNewMatches s mtch next }


/-- The updated match list of the non-golden path of `setMatchScore`:
the addressed match gets the submitted scores and status `played`. -/
def scoredMatches (s : TournamentState) (matchId : String) (scoreA scoreB : Int) :
    List Game :=
  s.matches.map (fun m =>
    if m.id = matchId then
      { m with scoreA := some scoreA, scoreB := some scoreB,
               status := MatchStatus.played }
    else m)

/-- `setMatchScore` from `TournamentContext.tsx`: look up the match by id
(unknown id is a no-op); a golden-goal match only accepts a score pair
summing to 1 with `scoreA ∈ {0, 1}` and then records it with status
`golden_goal`; any other match records the submitted scores unchecked
(status `played`) and then runs the elimination and knockout-advancement
blocks. -/
def setMatchScore (s : TournamentState) (matchId : String) (scoreA scoreB : Int) :
    TournamentState :=
  match s.matches.find? (fun m => m.id = matchId) with
  | none => s
  | some mtch =>
    if mtch.isGoldenGoal then
      if scoreA + scoreB ≠ 1 ∨ (scoreA ≠ 0 ∧ scoreA ≠ 1) then s
      else
        { s with «matches» := s.matches.map (fun m =>
            if m.id = matchId then
              { m with scoreA := some (if scoreA ≥ 1 then 1 else 0),
                       scoreB := some (if scoreB ≥ 1 then 1 else 0),
                       status := MatchStatus.golden_goal }
            else m) }
    else
      let next1 := { s with «matches» := scoredMatches s matchId scoreA scoreB }
      let next2 := elimStep s mtch next1
      let next3 := playInAdvanceStep s mtch next2
      semiAdvanceStep s mtch next3

/-! ### Frame lemmas for the `setMatchScore` sub-steps -/

theorem elimStep_matches (s : TournamentState) (mtch : Game) (next : TournamentState) :
    (elimStep s mtch next).matches = next.matches := rfl

theorem elimStep_players (s : TournamentState) (mtch : Game) (next : TournamentState) :
    (elimStep s mtch next).players = next.players := rfl

theorem playInAdvanceStep_append (s : TournamentState) (mtch : Game)
    (next : TournamentState) :
    ∃ extra, (playInAdvanceStep s mtch next).matches = next.matches ++ extra :=
  ⟨playInNewMatches s mtch next, rfl⟩

theorem playInAdvanceStep_elims (s : TournamentState) (mtch : Game)
    (next : TournamentState) :
    (playInAdvanceStep s mtch next).roundEliminations = next.roundEliminations := rfl

theorem semiAdvanceStep_append (s : TournamentState) (mtch : Game)
    (next : TournamentState) :
    ∃ extra, (semiAdvanceStep s mtch next).matches = next.matches ++ extra :=
  ⟨semiNewMatches s mtch next, rfl⟩

theorem semiAdvanceStep_elims (s : TournamentState) (mtch : Game)
    (next : TournamentState) :
    (semiAdvanceStep s mtch next).roundEliminations = next.roundEliminations := rfl

/-- `find?` by id over an id-preserving positional update returns the
updated match. -/
theorem find?_map_update {l : List Game} {mid : String} {mtch : Game}
    (g : Game → Game) (hid : ∀ m, (g m).id = m.id)
    (hf : l.find? (fun m => m.id = mid) = some mtch) :
    (l.map (fun m => if m.id = mid then g m else m)).find? (fun m => m.id = mid)
      = some (g mtch) := by
  induction l with
  | nil => simp at hf
  | cons a rest ih =>
    by_cases ha : a.id = mid
    · rw [List.find?_cons_of_pos _ (by simpa using ha)] at hf
      have : mtch = a := by injection hf with h; exact h.symm
      subst this
      simp only [List.map_cons, if_pos ha]
      rw [List.find?_cons_of_pos _ (by simp [hid, ha])]
    · rw [List.find?_cons_of_neg _ (by simpa using ha)] at hf
      simp only [List.map_cons, if_neg ha]
      rw [List.find?_cons_of_neg _ (by simpa using ha)]
      exact ih hf

theorem find?_append_some {l1 l2 : List Game} {p : Game → Bool} {x : Game}
    (h : l1.find? p = some x) : (l1 ++ l2).find? p = some x := by
  rw [List.find?_append, h]
  rfl

/-! ### Claim C7: score validation -/

/-- Claim C7 as stated (restricted to what is expressible over integer
scores): a submission with a negative score value is always a no-op, for
all matches. -/
def c7ClaimStatement : Prop :=
  ∀ (s : TournamentState) (matchId : String) (scoreA scoreB : Int),
    scoreA < 0 ∨ scoreB < 0 → setMatchScore s matchId scoreA scoreB = s

def c7Game : Game :=
  { id := "m0", playerAId := "pa", playerBId := "pb", roundIndex := 0,
    scoreA := none, scoreB := none, status := MatchStatus.pending }

def c7State : TournamentState :=
  { players := [⟨"pa", "A"⟩, ⟨"pb", "B"⟩], «matches» := [c7Game],
    knockoutPlayerCount := none, knockoutSeeds := none, roundEliminations := [] }

/-- C7 is false on the code: `setMatchScore` performs no validation for
non-golden matches, so a `(-1, 0)` submission on an ordinary group match
is recorded (the state changes). -/
theorem c7_counterexample : ¬ c7ClaimStatement := by
  intro h
  have h2 := h c7State "m0" (-1) 0 (Or.inl (by norm_num))
  revert h2
  decide

/-- C7 amended: `setMatchScore` is a no-op for an unknown match id, but
for any found non-golden match (group or knockout) every submitted score
pair — negative values included — is recorded on that match with status
`played`; only golden-goal submissions are validated. -/
theorem c7_amended :
    (∀ (s : TournamentState) (matchId : String) (a b : Int),
        s.matches.find? (fun m => m.id = matchId) = none →
        setMatchScore s matchId a b = s)
    ∧ (∀ (s : TournamentState) (matchId : String) (a b : Int) (mtch : Game),
        s.matches.find? (fun m => m.id = matchId) = some mtch →
        mtch.isGoldenGoal = false →
        (setMatchScore s matchId a b).matches.find? (fun m => m.id = matchId)
          = some { mtch with scoreA := some a, scoreB := some b,
                             status := MatchStatus.played }) := by
  constructor
  · intro s matchId a b hf
    unfold setMatchScore
    rw [hf]
  · intro s matchId a b mtch hf hg
    unfold setMatchScore
    rw [hf]
    dsimp only
    rw [if_neg (show ¬ (mtch.isGoldenGoal = true) by simp [hg])]
    obtain ⟨e2, he2⟩ := playInAdvanceStep_append s mtch
      (elimStep s mtch { s with «matches» := scoredMatches s matchId a b })
    obtain ⟨e3, he3⟩ := semiAdvanceStep_append s mtch
      (playInAdvanceStep s mtch
        (elimStep s mtch { s with «matches» := scoredMatches s matchId a b }))
    rw [he3, he2, elimStep_matches]
    apply find?_append_some
    apply find?_append_some
    have hres := find?_map_update
      (fun m => { m with scoreA := some a, scoreB := some b,
                         status := MatchStatus.played })
      (fun m => rfl) hf
    exact hres

def c7wGame : Game :=
  { id := "k0", playerAId := "pa", playerBId := "pb", roundIndex := -11,
    scoreA := none, scoreB := none, status := MatchStatus.pending,
    stage := some KnockoutStage.final }

def c7wState : TournamentState :=
  { players := [⟨"pa", "A"⟩, ⟨"pb", "B"⟩], «matches» := [c7wGame],
    knockoutPlayerCount := some 2, knockoutSeeds := some ["pa", "pb"],
    roundEliminations := [] }

/-- Witness for `c7_amended`: an unknown id is a no-op, and a `(-3, 2)`
submission on a knockout final is recorded as given. -/
theorem c7_amended_witness :
    setMatchScore c7wState "nope" 1 1 = c7wState
    ∧ (setMatchScore c7wState "k0" (-3) 2).matches.find? (fun m => m.id = "k0")
        = some { c7wGame with scoreA := some (-3), scoreB := some 2,
                              status := MatchStatus.played } := by
  constructor
  · exact c7_amended.1 c7wState "nope" 1 1 (by decide)
  · exact c7_amended.2 c7wState "k0" (-3) 2 c7wGame (by decide) (by decide)

/-! ### Claim C8: golden-goal submissions -/

/-- Claim C8: for a golden-goal match, `setMatchScore` accepts a score
pair iff it sums to 1 with both values in `{0, 1}` (checking `scoreA`
alone suffices, as the equivalence states); on acceptance the two scores
are set as submitted and the status becomes `golden_goal`; on any other
submission the entire state is returned unchanged. -/
theorem c8_golden_goal_validation (s : TournamentState) (matchId : String)
    (a b : Int) (mtch : Game)
    (hf : s.matches.find? (fun m => m.id = matchId) = some mtch)
    (hg : mtch.isGoldenGoal = true) :
    ((a + b = 1 ∧ (a = 0 ∨ a = 1)) ↔ (a + b = 1 ∧ (a = 0 ∨ a = 1) ∧ (b = 0 ∨ b = 1)))
    ∧ ((a + b = 1 ∧ (a = 0 ∨ a = 1)) →
        (setMatchScore s matchId a b).matches.find? (fun m => m.id = matchId)
          = some { mtch with scoreA := some a, scoreB := some b,
                             status := MatchStatus.golden_goal })
    ∧ (¬ (a + b = 1 ∧ (a = 0 ∨ a = 1)) → setMatchScore s matchId a b = s) := by
  refine ⟨by omega, ?_, ?_⟩
  · intro hv
    unfold setMatchScore
    rw [hf]
    dsimp only
    rw [if_pos hg]
    rw [if_neg (show ¬ (a + b ≠ 1 ∨ (a ≠ 0 ∧ a ≠ 1)) by omega)]
    have hres := find?_map_update
      (fun m => { m with scoreA := some (if a ≥ 1 then (1 : Int) else 0),
                         scoreB := some (if b ≥ 1 then (1 : Int) else 0),
                         status := MatchStatus.golden_goal }) (fun m => rfl) hf
    have ea : (if a ≥ 1 then (1 : Int) else 0) = a := by
      have h1 := hv.1
      have h2 := hv.2
      split <;> omega
    have eb : (if b ≥ 1 then (1 : Int) else 0) = b := by
      have h1 := hv.1
      have h2 := hv.2
      split <;> omega
    rw [ea, eb] at hres ⊢
    exact hres
  · intro hv
    unfold setMatchScore
    rw [hf]
    dsimp only
    rw [if_pos hg]
    rw [if_pos (show a + b ≠ 1 ∨ (a ≠ 0 ∧ a ≠ 1) by omega)]

def c8Game : Game :=
  { id := "g0", playerAId := "pa", playerBId := "pb", roundIndex := -1,
    scoreA := none, scoreB := none, status := MatchStatus.golden_goal,
    isGoldenGoal := true }

def c8State : TournamentState :=
  { players := [⟨"pa", "A"⟩, ⟨"pb", "B"⟩], «matches» := [c8Game],
    knockoutPlayerCount := none, knockoutSeeds := none, roundEliminations := [] }

/-- Witness for `c8_golden_goal_validation`: a `(1, 0)` submission is
accepted (status `golden_goal`) and a `(1, 1)` submission is rejected
(state unchanged). -/
theorem c8_golden_goal_validation_witness :
    (setMatchScore c8State "g0" 1 0).matches.find? (fun m => m.id = "g0")
      = some { c8Game with scoreA := some 1, scoreB := some 0,
                           status := MatchStatus.golden_goal }
    ∧ setMatchScore c8State "g0" 1 1 = c8State := by
  constructor
  · exact (c8_golden_goal_validation c8State "g0" 1 0 c8Game (by decide) (by decide)).2.1
      (by omega)
  · exact (c8_golden_goal_validation c8State "g0" 1 1 c8Game (by decide) (by decide)).2.2
      (by omega)

/-! ### Claim C10: a valid golden-goal score is a pure per-match update -/

/-- Claim C10: recording a valid score on a golden-goal match changes
only that match's `scoreA`, `scoreB` and `status`: every other match is
untouched, no match is created or removed, no elimination entry is
appended, and `players`, `knockoutSeeds` and `knockoutPlayerCount` are
unchanged — the elimination and knockout-advancement blocks never run for
a golden-goal match. -/
theorem c10_golden_frame (s : TournamentState) (matchId : String)
    (a b : Int) (mtch : Game)
    (hf : s.matches.find? (fun m => m.id = matchId) = some mtch)
    (hg : mtch.isGoldenGoal = true)
    (hsum : a + b = 1) (ha : a = 0 ∨ a = 1) :
    (setMatchScore s matchId a b).players = s.players
    ∧ (setMatchScore s matchId a b).knockoutPlayerCount = s.knockoutPlayerCount
    ∧ (setMatchScore s matchId a b).knockoutSeeds = s.knockoutSeeds
    ∧ (setMatchScore s matchId a b).roundEliminations = s.roundEliminations
    ∧ (setMatchScore s matchId a b).matches.length = s.matches.length
    ∧ (∀ n, n < s.matches.length →
        (((setMatchScore s matchId a b).matches.getD n dGame).id
            = (s.matches.getD n dGame).id
         ∧ ((setMatchScore s matchId a b).matches.getD n dGame).playerAId
            = (s.matches.getD n dGame).playerAId
         ∧ ((setMatchScore s matchId a b).matches.getD n dGame).playerBId
            = (s.matches.getD n dGame).playerBId
         ∧ ((setMatchScore s matchId a b).matches.getD n dGame).roundIndex
            = (s.matches.getD n dGame).roundIndex
         ∧ ((setMatchScore s matchId a b).matches.getD n dGame).stage
            = (s.matches.getD n dGame).stage
         ∧ ((setMatchScore s matchId a b).matches.getD n dGame).isGoldenGoal
            = (s.matches.getD n dGame).isGoldenGoal
         ∧ ((s.matches.getD n dGame).id ≠ matchId →
              (setMatchScore s matchId a b).matches.getD n dGame
                = s.matches.getD n dGame))) := by
  have heq : setMatchScore s matchId a b
      = { s with «matches» := s.matches.map (fun m =>
          if m.id = matchId then
            { m with scoreA := some (if a ≥ 1 then (1 : Int) else 0),
                     scoreB := some (if b ≥ 1 then (1 : Int) else 0),
                     status := MatchStatus.golden_goal }
          else m) } := by
    unfold setMatchScore
    rw [hf]
    dsimp only
    rw [if_pos hg]
    rw [if_neg (show ¬ (a + b ≠ 1 ∨ (a ≠ 0 ∧ a ≠ 1)) by omega)]
  rw [heq]
  refine ⟨rfl, rfl, rfl, rfl, by simp, ?_⟩
  intro n hn
  have hn2 : n < (s.matches.map (fun m =>
      if m.id = matchId then
        { m with scoreA := some (if a ≥ 1 then (1 : Int) else 0),
                 scoreB := some (if b ≥ 1 then (1 : Int) else 0),
                 status := MatchStatus.golden_goal }
      else m)).length := by simpa using hn
  rw [show ({ s with «matches» := s.matches.map (fun m =>
      if m.id = matchId then
        { m with scoreA := some (if a ≥ 1 then (1 : Int) else 0),
                 scoreB := some (if b ≥ 1 then (1 : Int) else 0),
                 status := MatchStatus.golden_goal }
      else m) } : TournamentState).matches = s.matches.map (fun m =>
      if m.id = matchId then
        { m with scoreA := some (if a ≥ 1 then (1 : Int) else 0),
                 scoreB := some (if b ≥ 1 then (1 : Int) else 0),
                 status := MatchStatus.golden_goal }
      else m) from rfl]
  rw [List.getD_eq_getElem _ _ hn2, List.getD_eq_getElem _ _ hn, List.getElem_map]
  by_cases hid : (s.matches[n]).id = matchId
  · rw [if_pos hid]
    exact ⟨rfl, rfl, rfl, rfl, rfl, rfl, fun hne => absurd hid hne⟩
  · rw [if_neg hid]
    exact ⟨rfl, rfl, rfl, rfl, rfl, rfl, fun _ => rfl⟩

def c10Game : Game :=
  { id := "g0", playerAId := "pa", playerBId := "pb", roundIndex := -1,
    scoreA := none, scoreB := none, status := MatchStatus.golden_goal,
    isGoldenGoal := true }

def c10State : TournamentState :=
  { players := [⟨"pa", "A"⟩, ⟨"pb", "B"⟩, ⟨"pc", "C"⟩], «matches» := [c10Game],
    knockoutPlayerCount := some 2, knockoutSeeds := some ["pa", "pb"],
    roundEliminations := [] }

/-- Witness for `c10_golden_frame`: concrete valid golden-goal scoring
run through the claim. -/
theorem c10_golden_frame_witness :
    (setMatchScore c10State "g0" 0 1).roundEliminations = c10State.roundEliminations
    ∧ (setMatchScore c10State "g0" 0 1).matches.length = c10State.matches.length := by
  have h := c10_golden_frame c10State "g0" 0 1 c10Game (by decide) (by decide)
    (by omega) (Or.inl rfl)
  exact ⟨h.2.2.2.1, h.2.2.2.2.1⟩

/-! ### Claim C6: one elimination per completed round -/

/-- A player returned by `getPlayerWithBye` is one of the still-active
players (in particular, not already eliminated). -/
theorem getPlayerWithBye_mem {players : List Player} {r : Int}
    {elim : List String} {p : Player}
    (h : getPlayerWithBye players r elim = some p) :
    p ∈ players.filter (fun q => ¬ elim.contains q.id) := by
  unfold getPlayerWithBye at h
  dsimp only at h
  split at h
  · exact absurd h (by simp)
  · split at h
    · exact absurd h (by simp)
    · exact List.mem_of_find?_eq_some h

/-- With an odd starting count and at least two active players,
`determineElimination` always chooses someone. -/
theorem determineElimination_isSome (players : List Player) (ms : List Game)
    (r : Int) (elim : List String) (hodd : players.length % 2 = 1)
    (hact : 1 < (players.filter (fun p => ¬ elim.contains p.id)).length) :
    ∃ e, determineElimination players ms r elim = some e := by
  unfold determineElimination
  dsimp only
  split
  · rename_i h
    rcases h with h | h
    · exact absurd hodd h
    · omega
  · split
    · rename_i bp heq
      have hmem := getPlayerWithBye_mem heq
      have hprop : ¬ elim.contains bp.id = true := by
        have := List.of_mem_filter hmem
        simpa using this
      rw [if_pos hprop]
      exact ⟨_, rfl⟩
    · cases hh : (((players.filter (fun p => ¬ elim.contains p.id)).map
          (fun p => roundScoreOf (ms.filter (fun m =>
            m.roundIndex = r ∧ m.stage = none ∧ m.isGoldenGoal = false)) p.id)).insertionSort
          RSLe).head? with
      | none =>
        rw [List.head?_eq_none_iff] at hh
        have hlen := (List.perm_insertionSort RSLe
          ((players.filter (fun p => ¬ elim.contains p.id)).map
            (fun p => roundScoreOf (ms.filter (fun m =>
              m.roundIndex = r ∧ m.stage = none ∧ m.isGoldenGoal = false)) p.id))).length_eq
        rw [hh] at hlen
        simp only [List.length_nil, List.length_map] at hlen
        omega
      | some w =>
        dsimp only
        have hwmem : w ∈ ((players.filter (fun p => ¬ elim.contains p.id)).map
            (fun p => roundScoreOf (ms.filter (fun m =>
              m.roundIndex = r ∧ m.stage = none ∧ m.isGoldenGoal = false)) p.id)) := by
          have h1 : w ∈ (((players.filter (fun p => ¬ elim.contains p.id)).map
              (fun p => roundScoreOf (ms.filter (fun m =>
                m.roundIndex = r ∧ m.stage = none ∧ m.isGoldenGoal = false)) p.id)).insertionSort
              RSLe) := List.mem_of_mem_head? (by rw [hh]; rfl)
          exact (List.perm_insertionSort RSLe _).mem_iff.mp h1
        obtain ⟨q, hq, hqe⟩ := List.mem_map.mp hwmem
        have hwid : w.playerId = q.id := by rw [← hqe]; rfl
        have hprop : ¬ elim.contains w.playerId = true := by
          rw [hwid]
          have := List.of_mem_filter hq
          simpa using this
        rw [if_pos hprop]
        exact ⟨_, rfl⟩

/-- Claim C6: for an odd starting entrant count, a score submission that
completes a not-yet-processed group round appends exactly one
`roundEliminations` entry for that round's index when more than one
entrant was still active at the round's start, and appends nothing once
at most one active entrant remains. -/
theorem c6_one_elimination_per_round (s : TournamentState) (matchId : String)
    (a b : Int) (mtch : Game)
    (hf : s.matches.find? (fun m => m.id = matchId) = some mtch)
    (hng : mtch.isGoldenGoal = false)
    (hstage : mtch.stage = none) (hround : mtch.roundIndex ≥ 0)
    (hodd : s.players.length % 2 = 1)
    (hcomplete : (((scoredMatches s matchId a b).filter (fun m =>
        m.roundIndex = mtch.roundIndex ∧ m.stage = none ∧ m.isGoldenGoal = false)).all
        (fun m => m.scoreA.isSome && m.scoreB.isSome)) = true)
    (hnew : s.roundEliminations.any (fun e => e.roundIndex = mtch.roundIndex) = false) :
    (1 < (s.players.filter (fun p =>
          ¬ ((s.roundEliminations.filter (fun e => e.roundIndex < mtch.roundIndex)).map
              (fun e => e.eliminatedPlayerId)).contains p.id)).length →
        ((setMatchScore s matchId a b).roundEliminations.countP
            (fun e => e.roundIndex = mtch.roundIndex) = 1
         ∧ (setMatchScore s matchId a b).roundEliminations.length
            = s.roundEliminations.length + 1))
    ∧ ((s.players.filter (fun p =>
          ¬ ((s.roundEliminations.filter (fun e => e.roundIndex < mtch.roundIndex)).map
              (fun e => e.eliminatedPlayerId)).contains p.id)).length ≤ 1 →
        (setMatchScore s matchId a b).roundEliminations = s.roundEliminations) := by
  have hsm : (setMatchScore s matchId a b).roundEliminations
      = s.roundEliminations
        ++ elimEntries s mtch { s with «matches» := scoredMatches s matchId a b } := by
    unfold setMatchScore
    rw [hf]
    dsimp only
    rw [if_neg (show ¬ (mtch.isGoldenGoal = true) by simp [hng])]
    rfl
  rw [hsm]
  have hzero : s.roundEliminations.countP
      (fun e => e.roundIndex = mtch.roundIndex) = 0 := by
    rw [List.countP_eq_zero]
    intro e he
    exact (List.any_eq_false.mp hnew) e he
  constructor
  · intro hgt
    obtain ⟨e, he⟩ := determineElimination_isSome s.players
      (scoredMatches s matchId a b) mtch.roundIndex
      ((s.roundEliminations.filter (fun x => x.roundIndex < mtch.roundIndex)).map
        (fun x => x.eliminatedPlayerId)) hodd hgt
    have hentry : elimEntries s mtch { s with «matches» := scoredMatches s matchId a b }
        = [{ roundIndex := mtch.roundIndex, eliminatedPlayerId := e.playerId,
             reason := if e.reason = ElimReason.bye then ElimReason.bye
                       else ElimReason.worst_performance }] := by
      unfold elimEntries
      dsimp only
      rw [if_pos ⟨⟨hstage, hround⟩, hodd⟩, if_pos hcomplete]
      rw [if_pos ⟨by simp [hnew], hgt⟩]
      rw [he]
    rw [hentry, List.countP_append, List.length_append, hzero]
    refine ⟨?_, rfl⟩
    simp
  · intro hle
    have hentry : elimEntries s mtch { s with «matches» := scoredMatches s matchId a b }
        = [] := by
      unfold elimEntries
      dsimp only
      rw [if_pos ⟨⟨hstage, hround⟩, hodd⟩, if_pos hcomplete]
      rw [if_neg (show ¬ _ by intro hcon; omega)]
    rw [hentry, List.append_nil]

def c6P (n : Nat) : Player := ⟨"p" ++ toString n, "P" ++ toString n⟩

def c6M (idx : Nat) (i j : Nat) (r : Int) (sa sb : Option Int) : Game :=
  { id := "m" ++ toString idx, playerAId := "p" ++ toString i,
    playerBId := "p" ++ toString j, roundIndex := r, scoreA := sa, scoreB := sb,
    status := if sa.isSome then MatchStatus.played else MatchStatus.pending }

def c6State : TournamentState :=
  { players := [c6P 0, c6P 1, c6P 2],
    «matches» := [c6M 0 1 2 0 none none],
    knockoutPlayerCount := none, knockoutSeeds := none, roundEliminations := [] }

/-- Witness for `c6_one_elimination_per_round`: scoring the only round-0
match of a 3-player tournament appends exactly one elimination entry. -/
theorem c6_one_elimination_per_round_witness :
    (setMatchScore c6State "m0" 2 0).roundEliminations.countP
        (fun e => e.roundIndex = (0 : Int)) = 1
    ∧ (setMatchScore c6State "m0" 2 0).roundEliminations.length
        = c6State.roundEliminations.length + 1 := by
  have h := (c6_one_elimination_per_round c6State "m0" 2 0 (c6M 0 1 2 0 none none)
    (by decide) (by decide) (by decide) (by decide) (by decide) (by decide)
    (by decide)).1 (by decide)
  exact h

/-! ### `advanceToFinalStage`, from `src/context/TournamentContext.tsx` -/

/-- Whether a match has both scores recorded. -/
def isPlayed (m : Game) : Bool := m.scoreA.isSome && m.scoreB.isSome

/-- The play-in matches of a state. -/
def playInOf (st : TournamentState) : List Game :=
  st.matches.filter (fun m => m.stage = some KnockoutStage.play_in)

/-- The semifinal matches of a state. -/
def semisOf (st : TournamentState) : List Game :=
  st.matches.filter (fun m => m.stage = some KnockoutStage.semi)

def hasSemiB (st : TournamentState) : Bool :=
  st.matches.any (fun m => m.stage = some KnockoutStage.semi)

def hasFinalB (st : TournamentState) : Bool :=
  st.matches.any (fun m => m.stage = some KnockoutStage.final)

/-- `allPlayInPlayed` of `advanceToFinalStage`: at least one play-in
exists and all are played. -/
def allPlayInPlayedB (st : TournamentState) : Bool :=
  decide (0 < (playInOf st).length) && (playInOf st).all isPlayed

/-- The play-in winners (higher score side of each play-in match). -/
def winnersOf (st : TournamentState) : List String :=
  (playInOf st).map (fun m =>
    if m.scoreA.getD 0 > m.scoreB.getD 0 then m.playerAId else m.playerBId)

/-- Guard of the 3-player block of `advanceToFinalStage`. -/
def guardA (st : TournamentState) (kc : Nat) : Prop :=
  allPlayInPlayedB st = true ∧ hasFinalB st = false ∧ kc = 3

/-- Guard of the 5+-player block of `advanceToFinalStage`. -/
def guardB (st : TournamentState) (kc : Nat) : Prop :=
  allPlayInPlayedB st = true ∧ hasSemiB st = false ∧ 5 ≤ kc

/-- Guard of the semifinal-completion block of `advanceToFinalStage`
(`bothPlayed && !hasFinal`, where `bothPlayed` requires at least two
semifinal matches all played). -/
def guardC (st : TournamentState) : Prop :=
  (2 ≤ (semisOf st).length ∧ (semisOf st).all isPlayed = true) ∧ hasFinalB st = false

instance (st : TournamentState) (kc : Nat) : Decidable (guardA st kc) :=
  inferInstanceAs (Decidable (_ ∧ _))

instance (st : TournamentState) (kc : Nat) : Decidable (guardB st kc) :=
  inferInstanceAs (Decidable (_ ∧ _))

instance (st : TournamentState) : Decidable (guardC st) :=
  inferInstanceAs (Decidable (_ ∧ _))

/-- The final and third-place matches created by the semifinal-completion
block of `advanceToFinalStage` (empty when its guard fails): winners of
the two semifinals meet in `ko-final`, losers in `ko-third`. -/
def cNewMatches (st : TournamentState) : List Game :=
  if guardC st then
    let m0 := (semisOf st).getD 0 dGame
    let m1 := (semisOf st).getD 1 dGame
    let winner1 := if m0.scoreA.getD 0 > m0.scoreB.getD 0 then m0.playerAId else m0.playerBId
    let loser1 := if m0.scoreA.getD 0 > m0.scoreB.getD 0 then m0.playerBId else m0.playerAId
    let winner2 := if m1.scoreA.getD 0 > m1.scoreB.getD 0 then m1.playerAId else m1.playerBId
    let loser2 := if m1.scoreA.getD 0 > m1.scoreB.getD 0 then m1.playerBId else m1.playerAId
    [{ id := "ko-final", playerAId := winner1, playerBId := winner2,
       roundIndex := -11, scoreA := none, scoreB := none,
       status := MatchStatus.pending, stage := some KnockoutStage.final },
     { id := "ko-third", playerAId := loser1, playerBId := loser2,
       roundIndex := -11, scoreA := none, scoreB := none,
       status := MatchStatus.pending, stage := some KnockoutStage.third_place }]
  else []

/-- The ascending-by-id order the 6-player block sorts play-in matches by
(`a.id.localeCompare(b.id)`). -/
def IdLe (m1 m2 : Game) : Prop := m1.id ≤ m2.id

instance : DecidableRel IdLe := fun m1 m2 => inferInstanceAs (Decidable (m1.id ≤ m2.id))

/-- The bottom-seed players who have not yet appeared in any play-in
match (`remainingPlayers` of `advanceToFinalStage`). -/
def remainingOf (st : TournamentState) (seeds : List String) : List String :=
  (seeds.drop 3).filter (fun pid =>
    ¬ ((playInOf st).flatMap (fun m => [m.playerAId, m.playerBId])).contains pid)

/-- `nextRoundPlayers` of the 7+-player block: current play-in winners
followed by the not-yet-played bottom seeds. -/
def nextRoundOf (st : TournamentState) (seeds : List String) : List String :=
  winnersOf st ++ remainingOf st seeds

/-- The matches `advanceToFinalStage` appends to the state (empty when
nothing advances), mirroring the source's early-return structure: the
3-player block, then the 5+/6/7+-player block (whose fall-through cases
reach the semifinal-completion block), then the semifinal-completion
block itself. -/
def advanceNewMatches (st : TournamentState) : List Game :=
  match st.knockoutSeeds, st.knockoutPlayerCount with
  | some seeds, some kc =>
    if kc = 0 then []
    else if guardA st kc then
      (if (winnersOf st).length = 1 then
        [{ id := "ko-final", playerAId := seeds.getD 0 "",
           playerBId := (winnersOf st).getD 0 "", roundIndex := -11,
           scoreA := none, scoreB := none, status := MatchStatus.pending,
           stage := some KnockoutStage.final }]
      else cNewMatches st)
    else if guardB st kc then
      (if kc = 5 then
        (if (winnersOf st).length = 1 then
          mkSemis (seeds.getD 0 "") (seeds.getD 1 "") (seeds.getD 2 "")
            ((winnersOf st).getD 0 "")
        else cNewMatches st)
      else if kc = 6 then
        (if (playInOf st).length = 1 ∧ (winnersOf st).length = 1
             ∧ (remainingOf st seeds).length = 1 then
           [{ id := "ko-playin-1", playerAId := seeds.getD 3 "",
              playerBId := (winnersOf st).getD 0 "", roundIndex := -10,
              scoreA := none, scoreB := none, status := MatchStatus.pending,
              stage := some KnockoutStage.play_in }]
         else if (playInOf st).length = 2 ∧ (remainingOf st seeds).length = 0 then
           (let sorted := (playInOf st).insertionSort IdLe
            let finalPlayInMatch := sorted.getD (sorted.length - 1) dGame
            let finalWinner :=
              if finalPlayInMatch.scoreA.getD 0 > finalPlayInMatch.scoreB.getD 0
              then finalPlayInMatch.playerAId else finalPlayInMatch.playerBId
            mkSemis (seeds.getD 0 "") (seeds.getD 1 "") (seeds.getD 2 "") finalWinner)
         else cNewMatches st)
      else
        (if 1 < (nextRoundOf st seeds).length then
           (if 0 < (buildPlayInRound (playInOf st).length (nextRoundOf st seeds)).length then
              buildPlayInRound (playInOf st).length (nextRoundOf st seeds)
            else if (nextRoundOf st seeds).length = 1 then
              mkSemis (seeds.getD 0 "") (seeds.getD 1 "") (seeds.getD 2 "")
                ((nextRoundOf st seeds).getD 0 "")
            else cNewMatches st)
         else if (nextRoundOf st seeds).length = 1 then
           mkSemis (seeds.getD 0 "") (seeds.getD 1 "") (seeds.getD 2 "")
             ((nextRoundOf st seeds).getD 0 "")
         else cNewMatches st))
    else cNewMatches st
  | _, _ => []

/-- `advanceToFinalStage` from `TournamentContext.tsx`: append whatever
the advancement logic creates (nothing when no block fires, matching the
source's `return s`). -/
def advanceToFinalStage (st : TournamentState) : TournamentState :=
  { st with «matches» := st.matches ++ advanceNewMatches st }

/-! ### Claim C5: idempotence of `advanceToFinalStage` -/

theorem advanceNewMatches_eq_nil {st : TournamentState} {seeds : List String} {kc : Nat}
    (hs : st.knockoutSeeds = some seeds) (hc : st.knockoutPlayerCount = some kc)
    (hA : ¬ guardA st kc) (hB : ¬ guardB st kc) (hC : ¬ guardC st) :
    advanceNewMatches st = [] := by
  unfold advanceNewMatches
  rw [hs, hc]
  dsimp only
  by_cases h0 : kc = 0
  · rw [if_pos h0]
  · rw [if_neg h0, if_neg hA, if_neg hB]
    unfold cNewMatches
    rw [if_neg hC]

theorem hasFinalB_advance (st : TournamentState) :
    hasFinalB (advanceToFinalStage st)
      = (hasFinalB st
         || (advanceNewMatches st).any (fun m => m.stage = some KnockoutStage.final)) := by
  unfold hasFinalB advanceToFinalStage
  exact List.any_append

theorem hasSemiB_advance (st : TournamentState) :
    hasSemiB (advanceToFinalStage st)
      = (hasSemiB st
         || (advanceNewMatches st).any (fun m => m.stage = some KnockoutStage.semi)) := by
  unfold hasSemiB advanceToFinalStage
  exact List.any_append

theorem playInOf_advance (st : TournamentState) :
    playInOf (advanceToFinalStage st)
      = playInOf st
        ++ (advanceNewMatches st).filter (fun m => m.stage = some KnockoutStage.play_in) := by
  unfold playInOf advanceToFinalStage
  exact List.filter_append _ _

theorem semisOf_advance (st : TournamentState) :
    semisOf (advanceToFinalStage st)
      = semisOf st
        ++ (advanceNewMatches st).filter (fun m => m.stage = some KnockoutStage.semi) := by
  unfold semisOf advanceToFinalStage
  exact List.filter_append _ _

theorem semisOf_eq_nil_of_hasSemiB_false {st : TournamentState}
    (h : hasSemiB st = false) : semisOf st = [] := by
  have h2 := List.any_eq_false.mp h
  exact List.filter_eq_nil_iff.mpr (fun g hg => h2 g hg)

theorem hasSemiB_of_two_le {st : TournamentState}
    (h : 2 ≤ (semisOf st).length) : hasSemiB st = true := by
  obtain ⟨g, hg⟩ := List.exists_mem_of_length_pos
    (show 0 < (semisOf st).length by omega)
  have hm := List.mem_filter.mp hg
  unfold hasSemiB
  rw [List.any_eq_true]
  exact ⟨g, hm.1, hm.2⟩

theorem buildPlayInRound_fields (i : Nat) (ids : List String) :
    ∀ g ∈ buildPlayInRound i ids,
      g.stage = some KnockoutStage.play_in ∧ g.scoreA = none := by
  intro g hg
  unfold buildPlayInRound at hg
  obtain ⟨j, _, hj⟩ := List.mem_map.mp hg
  rw [← hj]
  exact ⟨rfl, rfl⟩

theorem advance_eq_self_of_nil {st : TournamentState}
    (h : advanceNewMatches st = []) : advanceToFinalStage st = st := by
  unfold advanceToFinalStage
  rw [h, List.append_nil]

/-- Shape lemma: once the appended matches contain a final, nothing more
is created (given the 5+-player block is also blocked). -/
theorem key_of_final_any {st : TournamentState} {seeds : List String} {kc : Nat}
    (hs : st.knockoutSeeds = some seeds) (hc : st.knockoutPlayerCount = some kc)
    (hfin : (advanceNewMatches st).any
        (fun m => m.stage = some KnockoutStage.final) = true)
    (hB : ¬ guardB (advanceToFinalStage st) kc) :
    advanceNewMatches (advanceToFinalStage st) = [] := by
  have hfinT : hasFinalB (advanceToFinalStage st) = true := by
    rw [hasFinalB_advance, hfin, Bool.or_true]
  refine advanceNewMatches_eq_nil hs hc ?_ hB ?_
  · intro hga
    have h2 := hga.2.1
    rw [hfinT] at h2
    exact absurd h2 (by decide)
  · intro hgc
    have h2 := hgc.2
    rw [hfinT] at h2
    exact absurd h2 (by decide)

/-- Shape lemma: appended pending semifinals block every later block. -/
theorem key_of_semis {st : TournamentState} {seeds : List String} {kc : Nat}
    (hs : st.knockoutSeeds = some seeds) (hc : st.knockoutPlayerCount = some kc)
    (a b c d : String)
    (h1 : advanceNewMatches st = mkSemis a b c d)
    (hkc : 5 ≤ kc) :
    advanceNewMatches (advanceToFinalStage st) = [] := by
  have hsT : hasSemiB (advanceToFinalStage st) = true := by
    rw [hasSemiB_advance, h1]
    simp [mkSemis]
  have hallT : (semisOf (advanceToFinalStage st)).all isPlayed = false := by
    rw [semisOf_advance, h1, List.all_append]
    have h2 : ((mkSemis a b c d).filter
        (fun m => m.stage = some KnockoutStage.semi)).all isPlayed = false := by
      simp [mkSemis, isPlayed]
    rw [h2, Bool.and_false]
  refine advanceNewMatches_eq_nil hs hc ?_ ?_ ?_
  · intro hga
    have h3 := hga.2.2
    omega
  · intro hgb
    have h2 := hgb.2.1
    rw [hsT] at h2
    exact absurd h2 (by decide)
  · intro hgc
    have h2 := hgc.1.2
    rw [hallT] at h2
    exact absurd h2 (by decide)

/-- Shape lemma: appended pending play-in matches block every later
block (given no semifinal exists). -/
theorem key_of_pending_playins {st : TournamentState} {seeds : List String} {kc : Nat}
    (hs : st.knockoutSeeds = some seeds) (hc : st.knockoutPlayerCount = some kc)
    {ext : List Game}
    (h1 : advanceNewMatches st = ext)
    (hne : ext ≠ [])
    (hprop : ∀ g ∈ ext, g.stage = some KnockoutStage.play_in ∧ g.scoreA = none)
    (hsemi0 : hasSemiB st = false) :
    advanceNewMatches (advanceToFinalStage st) = [] := by
  have hextfilter : ext.filter (fun m => m.stage = some KnockoutStage.play_in) = ext :=
    List.filter_eq_self.mpr (fun g hg => by simp [(hprop g hg).1])
  have hallext : ext.all isPlayed = false := by
    obtain ⟨g, hg⟩ := List.exists_mem_of_length_pos (List.length_pos.mpr hne)
    rw [List.all_eq_false]
    refine ⟨g, hg, ?_⟩
    simp [isPlayed, (hprop g hg).2]
  have hppT : allPlayInPlayedB (advanceToFinalStage st) = false := by
    unfold allPlayInPlayedB
    rw [playInOf_advance, h1, hextfilter, List.all_append, hallext, Bool.and_false,
      Bool.and_false]
  have hsemisT : semisOf (advanceToFinalStage st) = semisOf st := by
    rw [semisOf_advance, h1]
    have h2 : ext.filter (fun m => m.stage = some KnockoutStage.semi) = [] :=
      List.filter_eq_nil_iff.mpr (fun g hg => by simp [(hprop g hg).1])
    rw [h2, List.append_nil]
  have hsemis0 : semisOf st = [] := semisOf_eq_nil_of_hasSemiB_false hsemi0
  refine advanceNewMatches_eq_nil hs hc ?_ ?_ ?_
  · intro hga
    have h2 := hga.1
    rw [hppT] at h2
    exact absurd h2 (by decide)
  · intro hgb
    have h2 := hgb.1
    rw [hppT] at h2
    exact absurd h2 (by decide)
  · intro hgc
    have h2 := hgc.1.1
    rw [hsemisT, hsemis0] at h2
    simp at h2

theorem key_of_nil {st : TournamentState} (h1 : advanceNewMatches st = []) :
    advanceNewMatches (advanceToFinalStage st) = [] := by
  rw [advance_eq_self_of_nil h1]
  exact h1

/-- Claim C5: calling `advanceToFinalStage` twice in a row with no score
recorded in between yields the same state as calling it once — no
knockout sub-stage's matches (play-in, semifinal, final, third-place)
are ever created a second time. -/
theorem c5_advance_idempotent (st : TournamentState) :
    advanceToFinalStage (advanceToFinalStage st) = advanceToFinalStage st := by
  have key : advanceNewMatches (advanceToFinalStage st) = [] := by
    cases hseeds : st.knockoutSeeds with
    | none =>
      apply key_of_nil
      unfold advanceNewMatches
      rw [hseeds]
    | some seeds =>
      cases hcount : st.knockoutPlayerCount with
      | none =>
        apply key_of_nil
        unfold advanceNewMatches
        rw [hseeds, hcount]
      | some kc =>
        by_cases h0 : kc = 0
        · apply key_of_nil
          unfold advanceNewMatches
          rw [hseeds, hcount]
          dsimp only
          rw [if_pos h0]
        · by_cases hga : guardA st kc
          · by_cases hw : (winnersOf st).length = 1
            · have h1 : advanceNewMatches st
                  = [{ id := "ko-final", playerAId := seeds.getD 0 "",
                       playerBId := (winnersOf st).getD 0 "", roundIndex := -11,
                       scoreA := none, scoreB := none, status := MatchStatus.pending,
                       stage := some KnockoutStage.final }] := by
                unfold advanceNewMatches
                rw [hseeds, hcount]
                dsimp only
                rw [if_neg h0, if_pos hga, if_pos hw]
              apply key_of_final_any hseeds hcount
              · rw [h1]
                simp
              · intro hgb
                have h2 := hga.2.2
                have h3 := hgb.2.2
                omega
            · by_cases hgc : guardC st
              · have h1 : advanceNewMatches st = cNewMatches st := by
                  unfold advanceNewMatches
                  rw [hseeds, hcount]
                  dsimp only
                  rw [if_neg h0, if_pos hga, if_neg hw]
                apply key_of_final_any hseeds hcount
                · rw [h1]
                  unfold cNewMatches
                  rw [if_pos hgc]
                  simp
                · intro hgb
                  have h2 := hga.2.2
                  have h3 := hgb.2.2
                  omega
              · apply key_of_nil
                unfold advanceNewMatches
                rw [hseeds, hcount]
                dsimp only
                rw [if_neg h0, if_pos hga, if_neg hw]
                unfold cNewMatches
                rw [if_neg hgc]
          · by_cases hgb : guardB st kc
            · have hgc : ¬ guardC st := by
                intro hgc
                have h2 := hasSemiB_of_two_le hgc.1.1
                rw [hgb.2.1] at h2
                exact absurd h2 (by decide)
              by_cases h5 : kc = 5
              · by_cases hw : (winnersOf st).length = 1
                · have h1 : advanceNewMatches st
                      = mkSemis (seeds.getD 0 "") (seeds.getD 1 "") (seeds.getD 2 "")
                          ((winnersOf st).getD 0 "") := by
                    unfold advanceNewMatches
                    rw [hseeds, hcount]
                    dsimp only
                    rw [if_neg h0, if_neg hga, if_pos hgb, if_pos h5, if_pos hw]
                  exact key_of_semis hseeds hcount _ _ _ _ h1 hgb.2.2
                · apply key_of_nil
                  unfold advanceNewMatches
                  rw [hseeds, hcount]
                  dsimp only
                  rw [if_neg h0, if_neg hga, if_pos hgb, if_pos h5, if_neg hw]
                  unfold cNewMatches
                  rw [if_neg hgc]
              · by_cases h6 : kc = 6
                · by_cases h6a : (playInOf st).length = 1 ∧ (winnersOf st).length = 1
                      ∧ (remainingOf st seeds).length = 1
                  · have h1 : advanceNewMatches st
                        = [{ id := "ko-playin-1", playerAId := seeds.getD 3 "",
                             playerBId := (winnersOf st).getD 0 "", roundIndex := -10,
                             scoreA := none, scoreB := none,
                             status := MatchStatus.pending,
                             stage := some KnockoutStage.play_in }] := by
                      unfold advanceNewMatches
                      rw [hseeds, hcount]
                      dsimp only
                      rw [if_neg h0, if_neg hga, if_pos hgb, if_neg h5, if_pos h6,
                        if_pos h6a]
                    refine key_of_pending_playins hseeds hcount h1 (by simp) ?_ hgb.2.1
                    intro g hg
                    simp only [List.mem_singleton] at hg
                    subst hg
                    exact ⟨rfl, rfl⟩
                  · by_cases h6b : (playInOf st).length = 2
                        ∧ (remainingOf st seeds).length = 0
                    · have h1 : advanceNewMatches st
                          = mkSemis (seeds.getD 0 "") (seeds.getD 1 "") (seeds.getD 2 "")
                              (let sorted := (playInOf st).insertionSort IdLe
                               let finalPlayInMatch := sorted.getD (sorted.length - 1) dGame
                               if finalPlayInMatch.scoreA.getD 0
                                   > finalPlayInMatch.scoreB.getD 0
                               then finalPlayInMatch.playerAId
                               else finalPlayInMatch.playerBId) := by
                        unfold advanceNewMatches
                        rw [hseeds, hcount]
                        dsimp only
                        rw [if_neg h0, if_neg hga, if_pos hgb, if_neg h5, if_pos h6,
                          if_neg h6a, if_pos h6b]
                      exact key_of_semis hseeds hcount _ _ _ _ h1 hgb.2.2
                    · apply key_of_nil
                      unfold advanceNewMatches
                      rw [hseeds, hcount]
                      dsimp only
                      rw [if_neg h0, if_neg hga, if_pos hgb, if_neg h5, if_pos h6,
                        if_neg h6a, if_neg h6b]
                      unfold cNewMatches
                      rw [if_neg hgc]
                · by_cases hnrp : 1 < (nextRoundOf st seeds).length
                  · by_cases hnrm : 0 < (buildPlayInRound (playInOf st).length
                        (nextRoundOf st seeds)).length
                    · have h1 : advanceNewMatches st
                          = buildPlayInRound (playInOf st).length (nextRoundOf st seeds) := by
                        unfold advanceNewMatches
                        rw [hseeds, hcount]
                        dsimp only
                        rw [if_neg h0, if_neg hga, if_pos hgb, if_neg h5, if_neg h6,
                          if_pos hnrp, if_pos hnrm]
                      exact key_of_pending_playins hseeds hcount h1
                        (List.length_pos.mp hnrm)
                        (buildPlayInRound_fields _ _) hgb.2.1
                    · by_cases hnrp1 : (nextRoundOf st seeds).length = 1
                      · omega
                      · apply key_of_nil
                        unfold advanceNewMatches
                        rw [hseeds, hcount]
                        dsimp only
                        rw [if_neg h0, if_neg hga, if_pos hgb, if_neg h5, if_neg h6,
                          if_pos hnrp, if_neg hnrm, if_neg hnrp1]
                        unfold cNewMatches
                        rw [if_neg hgc]
                  · by_cases hnrp1 : (nextRoundOf st seeds).length = 1
                    · have h1 : advanceNewMatches st
                          = mkSemis (seeds.getD 0 "") (seeds.getD 1 "") (seeds.getD 2 "")
                              ((nextRoundOf st seeds).getD 0 "") := by
                        unfold advanceNewMatches
                        rw [hseeds, hcount]
                        dsimp only
                        rw [if_neg h0, if_neg hga, if_pos hgb, if_neg h5, if_neg h6,
                          if_neg hnrp, if_pos hnrp1]
                      exact key_of_semis hseeds hcount _ _ _ _ h1 hgb.2.2
                    · apply key_of_nil
                      unfold advanceNewMatches
                      rw [hseeds, hcount]
                      dsimp only
                      rw [if_neg h0, if_neg hga, if_pos hgb, if_neg h5, if_neg h6,
                        if_neg hnrp, if_neg hnrp1]
                      unfold cNewMatches
                      rw [if_neg hgc]
            · by_cases hgc : guardC st
              · have h1 : advanceNewMatches st = cNewMatches st := by
                  unfold advanceNewMatches
                  rw [hseeds, hcount]
                  dsimp only
                  rw [if_neg h0, if_neg hga, if_neg hgb]
                apply key_of_final_any hseeds hcount
                · rw [h1]
                  unfold cNewMatches
                  rw [if_pos hgc]
                  simp
                · intro hgbT
                  have hsemi := hasSemiB_of_two_le hgc.1.1
                  have h2 : hasSemiB (advanceToFinalStage st) = true := by
                    rw [hasSemiB_advance, hsemi]
                    rfl
                  have h3 := hgbT.2.1
                  rw [h2] at h3
                  exact absurd h3 (by decide)
              · apply key_of_nil
                unfold advanceNewMatches
                rw [hseeds, hcount]
                dsimp only
                rw [if_neg h0, if_neg hga, if_neg hgb]
                unfold cNewMatches
                rw [if_neg hgc]
  calc advanceToFinalStage (advanceToFinalStage st)
      = { advanceToFinalStage st with «matches» :=
          ((advanceToFinalStage st).matches
            ++ advanceNewMatches (advanceToFinalStage st)) } := rfl
    _ = advanceToFinalStage st := by rw [key, List.append_nil]

/-! ### `startKnockoutStage`, from `src/context/TournamentContext.tsx` -/

/-- The in-place swap `[list[i], list[j]] = [list[j], list[i]]` of the
Fisher–Yates loops, on lists (both reads happen before the writes). -/
def swapL {α : Type} (l : List α) (i j : Nat) (d : α) : List α :=
  (l.set i (l.getD j d)).set j (l.getD i d)

/-- The Fisher–Yates loop
`for (i = len-1; i > 0; i--) { j = floor(random()*(i+1)); swap(i, j) }`,
with the random draws supplied as the stream `rng` (`t` counts the calls
made so far; the `t`-th draw is reduced modulo `i + 1` to land in
`[0, i]`). -/
def fyAux {α : Type} (d : α) (rng : Nat → Nat) : Nat → Nat → List α → List α
  | 0, _, l => l
  | i + 1, t, l => fyAux d rng i (t + 1) (swapL l (i + 1) (rng t % (i + 2)) d)

/-- The full shuffle of a list, as used by `startKnockoutStage`. -/
def fisherYates {α : Type} (l : List α) (d : α) (rng : Nat → Nat) : List α :=
  fyAux d rng (l.length - 1) 0 l

theorem cons_getD_set_perm {α : Type} :
    ∀ (t : List α) (m : Nat), m < t.length → ∀ (a d : α),
      (t.getD m d :: t.set m a).Perm (a :: t) := by
  intro t
  induction t with
  | nil => intro m hm; simp at hm
  | cons b t2 ih =>
    intro m hm a d
    cases m with
    | zero => simpa using List.Perm.swap a b t2
    | succ m2 =>
      have hm2 : m2 < t2.length := by simpa using hm
      have hstep : ((b :: t2).getD (m2 + 1) d :: (b :: t2).set (m2 + 1) a)
          = (t2.getD m2 d :: b :: t2.set m2 a) := by
        simp [List.getD_cons_succ]
      rw [hstep]
      exact ((List.Perm.swap b _ _).trans
        (List.Perm.cons b (ih m2 hm2 a d))).trans (List.Perm.swap a b t2)

theorem swapL_perm {α : Type} :
    ∀ (l : List α) (i j : Nat), i < l.length → j < l.length → ∀ d : α,
      (swapL l i j d).Perm l := by
  intro l
  induction l with
  | nil => intro i j hi; simp at hi
  | cons a t ih =>
    intro i j hi hj d
    cases i with
    | zero =>
      cases j with
      | zero => simp [swapL]
      | succ m =>
        have hm : m < t.length := by simpa using hj
        simpa [swapL, List.getD_cons_succ] using cons_getD_set_perm t m hm a d
    | succ k =>
      cases j with
      | zero =>
        have hk : k < t.length := by simpa using hi
        simpa [swapL, List.getD_cons_succ] using cons_getD_set_perm t k hk a d
      | succ m =>
        have hk : k < t.length := by simpa using hi
        have hm : m < t.length := by simpa using hj
        have := ih k m hk hm d
        simpa [swapL, List.getD_cons_succ] using List.Perm.cons a this

theorem swapL_length {α : Type} (l : List α) (i j : Nat) (d : α) :
    (swapL l i j d).length = l.length := by
  simp [swapL]

theorem fyAux_perm {α : Type} (d : α) (rng : Nat → Nat) :
    ∀ (i t : Nat) (l : List α), i < l.length → (fyAux d rng i t l).Perm l := by
  intro i
  induction i with
  | zero => intro t l _; exact List.Perm.refl l
  | succ k ih =>
    intro t l hi
    have hswap : (swapL l (k + 1) (rng t % (k + 2)) d).Perm l :=
      swapL_perm l (k + 1) (rng t % (k + 2)) hi
        (lt_of_lt_of_le (Nat.mod_lt _ (by omega)) (by omega)) d
    have hlen : k < (swapL l (k + 1) (rng t % (k + 2)) d).length := by
      rw [swapL_length]
      omega
    exact (ih (t + 1) _ hlen).trans hswap

theorem fisherYates_perm {α : Type} (l : List α) (d : α) (rng : Nat → Nat) :
    (fisherYates l d rng).Perm l := by
  cases l with
  | nil => exact List.Perm.refl _
  | cons a t =>
    exact fyAux_perm d rng _ 0 (a :: t) (by simp)

/-- `startKnockoutStage` from `TournamentContext.tsx`: seed the knockout
draw from the top-`knockoutPlayerCount` standings rows and create the
first knockout matches.  `rng` supplies the draws of the Fisher–Yates
shuffles; `coin` models the single `Math.random() > 0.5` flip of the
3-player case. -/
def startKnockoutStage (s : TournamentState) (rng : Nat → Nat) (coin : Bool) :
    TournamentState :=
  match s.knockoutPlayerCount with
  | none => s
  | some kc =>
    if kc < 2 then s
    else
      let groupStandings := computeStandings s.players
        (s.matches.filter (fun m => m.stage = none))
      let qualified := (groupStandings.take kc).map (fun r => r.playerId)
      if qualified.length < kc then s
      else if kc = 2 then
        let seeds := fisherYates qualified "" rng
        { s with knockoutSeeds := some seeds,
                 «matches» := (s.matches ++
                   [{ id := "ko-final", playerAId := seeds.getD 0 "",
                      playerBId := seeds.getD 1 "", roundIndex := -11,
                      scoreA := none, scoreB := none, status := MatchStatus.pending,
                      stage := some KnockoutStage.final }]) }
      else if kc = 3 then
        let seeds := if coin then
            [qualified.getD 0 "", qualified.getD 2 "", qualified.getD 1 ""]
          else [qualified.getD 0 "", qualified.getD 1 "", qualified.getD 2 ""]
        { s with knockoutSeeds := some seeds,
                 «matches» := (s.matches ++
                   [{ id := "ko-playin", playerAId := seeds.getD 1 "",
                      playerBId := seeds.getD 2 "", roundIndex := -10,
                      scoreA := none, scoreB := none, status := MatchStatus.pending,
                      stage := some KnockoutStage.play_in }]) }
      else if kc = 4 then
        let indices := fisherYates [0, 1, 2, 3] 0 rng
        let seeds := indices.map (fun idx => qualified.getD idx "")
        { s with knockoutSeeds := some seeds,
                 «matches» := (s.matches ++
                   [{ id := "ko-semi1", playerAId := seeds.getD 0 "",
                      playerBId := seeds.getD 1 "", roundIndex := -10,
                      scoreA := none, scoreB := none, status := MatchStatus.pending,
                      stage := some KnockoutStage.semi },
                    { id := "ko-semi2", playerAId := seeds.getD 2 "",
                      playerBId := seeds.getD 3 "", roundIndex := -10,
                      scoreA := none, scoreB := none, status := MatchStatus.pending,
                      stage := some KnockoutStage.semi }]) }
      else
        let top3 := qualified.take 3
        let bottomPlayers := qualified.drop 3
        let shuffledBottom := fisherYates bottomPlayers "" rng
        let seeds := top3 ++ shuffledBottom
        let bottomCount := bottomPlayers.length
        let matchesToAdd : List Game :=
          if bottomCount = 1 then []
          else if bottomCount = 2 then
            [{ id := "ko-playin-0", playerAId := seeds.getD 3 "",
               playerBId := seeds.getD 4 "", roundIndex := -10,
               scoreA := none, scoreB := none, status := MatchStatus.pending,
               stage := some KnockoutStage.play_in }]
          else if bottomCount = 3 then
            [{ id := "ko-playin-0", playerAId := seeds.getD 4 "",
               playerBId := seeds.getD 5 "", roundIndex := -10,
               scoreA := none, scoreB := none, status := MatchStatus.pending,
               stage := some KnockoutStage.play_in }]
          else buildPlayInRound 0 shuffledBottom
        { s with knockoutSeeds := some seeds,
                 «matches» := (s.matches ++ matchesToAdd) }

/-! ### C3: seed order produced by `startKnockoutStage` -/

/-- The qualifier ids `startKnockoutStage` seeds from: the player ids of
the top-`knockoutPlayerCount` standings rows over the stage-unset
matches. -/
def c3Qualified (s : TournamentState) : List String :=
  ((computeStandings s.players (s.matches.filter (fun m => m.stage = none))).take
    (s.knockoutPlayerCount.getD 0)).map (fun r => r.playerId)

/-- Claim C3 as stated: whenever the knockout stage starts with
qualifying count `k ≥ 4` (enough qualifiers exist), the seed list keeps
the top 3 qualifiers unshuffled in rank order and permutes only the
rest after them. -/
def c3ClaimStatement : Prop :=
  ∀ (s : TournamentState) (rng : Nat → Nat) (coin : Bool) (kc : Nat),
    s.knockoutPlayerCount = some kc → 4 ≤ kc → (c3Qualified s).length = kc →
    ∃ seeds : List String,
      (startKnockoutStage s rng coin).knockoutSeeds = some seeds ∧
      seeds.take 3 = (c3Qualified s).take 3 ∧
      (seeds.drop 3).Perm ((c3Qualified s).drop 3)

def c3State : TournamentState :=
  { players := [⟨"p0", "A"⟩, ⟨"p1", "B"⟩, ⟨"p2", "C"⟩, ⟨"p3", "D"⟩],
    «matches» := [], knockoutPlayerCount := some 4, knockoutSeeds := none,
    roundEliminations := [] }

/-- C3 is false on the code: with exactly 4 qualifiers the code shuffles
all four seeds (it only protects the top 3 in the `k ≥ 5` branch).  With
every random draw 0, the index shuffle of `[0,1,2,3]` yields
`[1,2,3,0]`, so seed 0 is the 2nd-ranked qualifier, not the 1st. -/
theorem c3_counterexample : ¬ c3ClaimStatement := by
  intro h
  obtain ⟨seeds, hs, ht, _⟩ :=
    h c3State (fun _ => 0) false 4 rfl (by omega) (by decide)
  have hs2 : (some ["p1", "p2", "p3", "p0"] : Option (List String))
      = some seeds := by
    rw [← hs]; decide
  rw [← Option.some_inj.mp hs2] at ht
  revert ht
  decide

theorem startKnockout_seeds_of_ge5 (s : TournamentState) (rng : Nat → Nat)
    (coin : Bool) (kc : Nat) (h1 : s.knockoutPlayerCount = some kc)
    (h2 : 5 ≤ kc) (hql : (c3Qualified s).length = kc) :
    (startKnockoutStage s rng coin).knockoutSeeds =
      some ((c3Qualified s).take 3 ++
        fisherYates ((c3Qualified s).drop 3) "" rng) := by
  have hq : c3Qualified s =
      ((computeStandings s.players
        (s.matches.filter (fun m => m.stage = none))).take kc).map
        (fun r => r.playerId) := by
    simp [c3Qualified, h1]
  rw [hq] at hql ⊢
  simp only [startKnockoutStage, h1]
  rw [if_neg (show ¬ kc < 2 by omega), if_neg (show ¬ _ < kc by omega),
    if_neg (show ¬ kc = 2 by omega), if_neg (show ¬ kc = 3 by omega),
    if_neg (show ¬ kc = 4 by omega)]

/-- C3 amended: for qualifying count `k ≥ 5` the seed list is the top-3
qualifiers in rank order followed by a permutation (the Fisher–Yates
shuffle) of the remaining qualifiers; for `k = 4` all four seeds are
shuffled (see the counterexample). -/
theorem c3_amended (s : TournamentState) (rng : Nat → Nat) (coin : Bool)
    (kc : Nat) (h1 : s.knockoutPlayerCount = some kc) (h2 : 5 ≤ kc)
    (hql : (c3Qualified s).length = kc) :
    ∃ seeds : List String,
      (startKnockoutStage s rng coin).knockoutSeeds = some seeds ∧
      seeds.take 3 = (c3Qualified s).take 3 ∧
      (seeds.drop 3).Perm ((c3Qualified s).drop 3) := by
  refine ⟨(c3Qualified s).take 3 ++
    fisherYates ((c3Qualified s).drop 3) "" rng,
    startKnockout_seeds_of_ge5 s rng coin kc h1 h2 hql, ?_, ?_⟩
  · have hlen : ((c3Qualified s).take 3).length = 3 := by
      rw [List.length_take]; omega
    rw [List.take_append_eq_append_take, hlen, List.take_take]
    simp
  · have hlen : ((c3Qualified s).take 3).length = 3 := by
      rw [List.length_take]; omega
    rw [List.drop_append_eq_append_drop, hlen]
    rw [List.drop_eq_nil_of_le (by omega)]
    simpa using fisherYates_perm ((c3Qualified s).drop 3) "" rng

def c3wState : TournamentState :=
  { players := [⟨"p0", "A"⟩, ⟨"p1", "B"⟩, ⟨"p2", "C"⟩, ⟨"p3", "D"⟩, ⟨"p4", "E"⟩],
    «matches» := [], knockoutPlayerCount := some 5, knockoutSeeds := none,
    roundEliminations := [] }

/-- Witness for `c3_amended`: a 5-qualifier knockout start keeps the top
3 seeds and permutes the bottom 2. -/
theorem c3_amended_witness :
    ∃ seeds : List String,
      (startKnockoutStage c3wState (fun _ => 0) false).knockoutSeeds
        = some seeds ∧
      seeds.take 3 = (c3Qualified c3wState).take 3 ∧
      (seeds.drop 3).Perm ((c3Qualified c3wState).drop 3) :=
  c3_amended c3wState (fun _ => 0) false 5 rfl (by omega) (by decide)

/-! ### C4: which entrant a completed round eliminates -/

/-- The matches `determineElimination` scores a round by: that round's
stage-unset, non-golden matches. -/
def c4RoundMatches (ms : List Game) (roundIndex : Int) : List Game :=
  ms.filter (fun m => m.roundIndex = roundIndex ∧ m.stage = none ∧ m.isGoldenGoal = false)

/-- Claim C4 as stated: with an odd starting count and more than one
active entrant, the eliminated entrant is the round's bye entrant under
the scheduler's rotation — the rotation over the FULL original entrant
list (`getPlayerWithBye` with nobody eliminated) — with reason `bye`
when that entrant is still active, and otherwise the active entrant with
the worst round-local `(points asc, GD asc, GF asc)` score with reason
`worst_performance`. -/
def c4ClaimStatement : Prop :=
  ∀ (players : List Player) (ms : List Game) (roundIndex : Int) (elim : List String),
    players.length % 2 = 1 →
    1 < (players.filter (fun p => ¬ elim.contains p.id)).length →
    ((∀ b, getPlayerWithBye players roundIndex [] = some b → ¬ elim.contains b.id →
        determineElimination players ms roundIndex elim = some ⟨b.id, ElimReason.bye⟩)
     ∧ ((∀ b, getPlayerWithBye players roundIndex [] = some b → elim.contains b.id = true) →
        ∃ w, (players.filter (fun p => ¬ elim.contains p.id)).any (fun p => p.id = w) = true ∧
          determineElimination players ms roundIndex elim
            = some ⟨w, ElimReason.worst_performance⟩ ∧
          ∀ p ∈ players.filter (fun p => ¬ elim.contains p.id),
            RSLe (roundScoreOf (c4RoundMatches ms roundIndex) w)
              (roundScoreOf (c4RoundMatches ms roundIndex) p.id)))

def c4Players : List Player :=
  [⟨"p0", "A"⟩, ⟨"p1", "B"⟩, ⟨"p2", "C"⟩, ⟨"p3", "D"⟩, ⟨"p4", "E"⟩]

def c4Matches : List Game :=
  [{ id := "m0", playerAId := "p1", playerBId := "p2", roundIndex := 1,
     scoreA := some 0, scoreB := some 5, status := MatchStatus.played }]

/-- C4 is false on the code: the code computes the bye by rotating the
ACTIVE entrant list, not the scheduler's full original list.  With 5
entrants and `p0` already eliminated, round 1's scheduler bye is the
still-active `p3`, but the code sees 4 active entrants (even count, no
bye) and eliminates the round's worst performer `p1` instead. -/
theorem c4_counterexample : ¬ c4ClaimStatement := by
  intro h
  have h2 := (h c4Players c4Matches 1 ["p0"] (by decide) (by decide)).1
    ⟨"p3", "D"⟩ (by decide) (by decide)
  revert h2
  decide

theorem RSLe_refl (a : RoundScore) : RSLe a a :=
  Or.inr ⟨rfl, Or.inr ⟨rfl, le_refl _⟩⟩

theorem sorted_head_min {l : List RoundScore} {w : RoundScore}
    (hs : l.Sorted RSLe) (hh : l.head? = some w) : ∀ x ∈ l, RSLe w x := by
  cases l with
  | nil => simp at hh
  | cons a t =>
    have ha : a = w := by simpa using hh
    subst ha
    intro x hx
    rcases List.mem_cons.mp hx with h | h
    · rw [h]; exact RSLe_refl a
    · exact (List.sorted_cons.mp hs).1 x h

/-- C4 amended: the bye is computed by the rotation over the STILL-ACTIVE
entrant list (so it can differ from the scheduler's full-list rotation
once entrants have been eliminated, and it never exists when the active
count is even).  When that active-list rotation yields a bye entrant,
that entrant — always still active — is eliminated with reason `bye`;
when it yields none, the active entrant with the lowest round-local
`(points asc, GD asc, GF asc)` score is eliminated with reason
`worst_performance`. -/
theorem c4_amended (players : List Player) (ms : List Game) (roundIndex : Int)
    (elim : List String) (hodd : players.length % 2 = 1)
    (hact : 1 < (players.filter (fun p => ¬ elim.contains p.id)).length) :
    (∀ b, getPlayerWithBye players roundIndex elim = some b →
        determineElimination players ms roundIndex elim = some ⟨b.id, ElimReason.bye⟩)
    ∧ (getPlayerWithBye players roundIndex elim = none →
        ∃ w, (players.filter (fun p => ¬ elim.contains p.id)).any (fun p => p.id = w) = true ∧
          determineElimination players ms roundIndex elim
            = some ⟨w, ElimReason.worst_performance⟩ ∧
          ∀ p ∈ players.filter (fun p => ¬ elim.contains p.id),
            RSLe (roundScoreOf (c4RoundMatches ms roundIndex) w)
              (roundScoreOf (c4RoundMatches ms roundIndex) p.id)) := by
  have hguard : ¬ (¬ players.length % 2 = 1
      ∨ (players.filter (fun p => ¬ elim.contains p.id)).length ≤ 1) := by
    intro hc
    rcases hc with hc | hc
    · exact hc hodd
    · omega
  constructor
  · intro b hb
    unfold determineElimination
    dsimp only
    rw [if_neg hguard, hb]
    dsimp only
    have hmem := getPlayerWithBye_mem hb
    have hprop : ¬ elim.contains b.id = true := by
      have := List.of_mem_filter hmem
      simpa using this
    rw [if_pos hprop]
  · intro hb
    cases hh : (((players.filter (fun p => ¬ elim.contains p.id)).map
        (fun p => roundScoreOf (ms.filter (fun m =>
          m.roundIndex = roundIndex ∧ m.stage = none ∧ m.isGoldenGoal = false)) p.id)).insertionSort
        RSLe).head? with
    | none =>
      rw [List.head?_eq_none_iff] at hh
      have hlen := (List.perm_insertionSort RSLe
        ((players.filter (fun p => ¬ elim.contains p.id)).map
          (fun p => roundScoreOf (ms.filter (fun m =>
            m.roundIndex = roundIndex ∧ m.stage = none ∧ m.isGoldenGoal = false)) p.id))).length_eq
      rw [hh] at hlen
      simp only [List.length_nil, List.length_map] at hlen
      omega
    | some w0 =>
      have hwmem : w0 ∈ ((players.filter (fun p => ¬ elim.contains p.id)).map
          (fun p => roundScoreOf (ms.filter (fun m =>
            m.roundIndex = roundIndex ∧ m.stage = none ∧ m.isGoldenGoal = false)) p.id)) := by
        have h1 := List.mem_of_mem_head? (show w0 ∈ _ from by rw [hh]; rfl)
        exact (List.perm_insertionSort RSLe _).mem_iff.mp h1
      obtain ⟨q, hq, hqe⟩ := List.mem_map.mp hwmem
      have hwid : w0.playerId = q.id := by rw [← hqe]; rfl
      have hprop : ¬ elim.contains w0.playerId = true := by
        rw [hwid]
        have := List.of_mem_filter hq
        simpa using this
      have hres : determineElimination players ms roundIndex elim
          = some ⟨w0.playerId, ElimReason.worst_performance⟩ := by
        unfold determineElimination
        dsimp only
        rw [if_neg hguard, hb]
        dsimp only
        rw [hh]
        dsimp only
        rw [if_pos hprop]
      refine ⟨w0.playerId, ?_, hres, ?_⟩
      · exact List.any_eq_true.mpr ⟨q, hq, by rw [hwid]; simp⟩
      · intro p hp
        have hpm : roundScoreOf (c4RoundMatches ms roundIndex) p.id
            ∈ (((players.filter (fun p => ¬ elim.contains p.id)).map
              (fun p => roundScoreOf (ms.filter (fun m =>
                m.roundIndex = roundIndex ∧ m.stage = none ∧ m.isGoldenGoal = false)) p.id)).insertionSort
              RSLe) := by
          refine (List.perm_insertionSort RSLe _).mem_iff.mpr ?_
          exact List.mem_map_of_mem _ hp
        have hmin := sorted_head_min (List.sorted_insertionSort RSLe _) hh _ hpm
        have hw0 : roundScoreOf (c4RoundMatches ms roundIndex) w0.playerId = w0 := by
          rw [hwid]
          exact hqe
        rw [hw0]
        exact hmin

def c4wPlayers : List Player :=
  [⟨"q0", "A"⟩, ⟨"q1", "B"⟩, ⟨"q2", "C"⟩]

/-- Witness for `c4_amended`: a 3-entrant first round (nobody yet
eliminated) — the active-list rotation yields a bye entrant and the
theorem pins the elimination to them. -/
theorem c4_amended_witness :
    (∀ b, getPlayerWithBye c4wPlayers 0 [] = some b →
        determineElimination c4wPlayers [] 0 [] = some ⟨b.id, ElimReason.bye⟩)
    ∧ (getPlayerWithBye c4wPlayers 0 [] = none →
        ∃ w, (c4wPlayers.filter (fun p => ¬ ([] : List String).contains p.id)).any
            (fun p => p.id = w) = true ∧
          determineElimination c4wPlayers [] 0 []
            = some ⟨w, ElimReason.worst_performance⟩ ∧
          ∀ p ∈ c4wPlayers.filter (fun p => ¬ ([] : List String).contains p.id),
            RSLe (roundScoreOf (c4RoundMatches [] 0) w)
              (roundScoreOf (c4RoundMatches [] 0) p.id)) :=
  c4_amended c4wPlayers [] 0 [] (by decide) (by decide)

/-! ### C2: the round-robin scheduler (modelled from the spec; the
source file `lib/roundRobin.ts` is not part of the provided sources) -/


def slotAt (c r p : Nat) : Nat :=
  if p = 0 then 0 else 1 + ((p - 1 + ((c - 1) - r % (c - 1))) % (c - 1))

def roundSlotPairs (c r : Nat) : List (Nat × Nat) :=
  (List.range (c / 2)).map (fun i => (slotAt c r i, slotAt c r (c - 1 - i)))

def allRoundSlotPairs (c : Nat) : List (Nat × Nat × Nat) :=
  (List.range (c - 1)).flatMap (fun r => (roundSlotPairs c r).map (fun ab => (r, ab.1, ab.2)))

theorem tail_slot_eval (m r j : Nat) (hr : r < m) (hj : j < m) :
    (((j + r) % m + (m - r)) % m) = j := by
  rw [Nat.mod_add_mod]
  have h1 : j + r + (m - r) = j + m := by omega
  rw [h1, Nat.add_mod_right, Nat.mod_eq_of_lt hj]

theorem slotAt_lt (c r p : Nat) (h2 : 2 ≤ c) : slotAt c r p < c := by
  unfold slotAt
  split
  · omega
  · have := Nat.mod_lt (p - 1 + ((c - 1) - r % (c - 1))) (show 0 < c - 1 by omega)
    omega

theorem slotAt_zero (c r : Nat) : slotAt c r 0 = 0 := by
  simp [slotAt]

theorem slotAt_pos_eval (c r p : Nat) (hp : 1 ≤ p) (hr : r < c - 1) :
    slotAt c r p = 1 + ((p - 1 + ((c - 1) - r)) % (c - 1)) := by
  unfold slotAt
  rw [if_neg (by omega), Nat.mod_eq_of_lt hr]

theorem slotAt_inj (c r p q : Nat) (h2 : 2 ≤ c) (hr : r < c - 1)
    (hp : p < c) (hq : q < c) (heq : slotAt c r p = slotAt c r q) : p = q := by
  rcases Nat.eq_zero_or_pos p with hp0 | hp0
  · rcases Nat.eq_zero_or_pos q with hq0 | hq0
    · omega
    · rw [hp0, slotAt_zero, slotAt_pos_eval c r q hq0 hr] at heq
      omega
  · rcases Nat.eq_zero_or_pos q with hq0 | hq0
    · rw [hq0, slotAt_zero, slotAt_pos_eval c r p hp0 hr] at heq
      omega
    · rw [slotAt_pos_eval c r p hp0 hr, slotAt_pos_eval c r q hq0 hr] at heq
      have hme : (p - 1 + ((c - 1) - r)) % (c - 1) = (q - 1 + ((c - 1) - r)) % (c - 1) := by
        omega
      have hmeq : p - 1 ≡ q - 1 [MOD (c - 1)] :=
        Nat.ModEq.add_right_cancel' ((c - 1) - r) hme
      have h1 : (p - 1) % (c - 1) = (q - 1) % (c - 1) := hmeq
      rw [Nat.mod_eq_of_lt (by omega), Nat.mod_eq_of_lt (by omega)] at h1
      omega

theorem exists_slot_pair (c a b : Nat) (h2 : 2 ≤ c) (hce : c % 2 = 0)
    (ha : a < c) (hb : b < c) (hab : a ≠ b) :
    ∃ r, r < c - 1 ∧ ∃ i, i < c / 2 ∧
      ((slotAt c r i = a ∧ slotAt c r (c - 1 - i) = b) ∨
       (slotAt c r i = b ∧ slotAt c r (c - 1 - i) = a)) := by
  set m := c - 1 with hm
  have hmpos : 0 < m := by omega
  have hmodd : m % 2 = 1 := by omega
  rcases Nat.eq_zero_or_pos a with ha0 | hapos
  · -- a = 0: pair (0, b) sits at positions (0, c-1) in round m - b
    refine ⟨m - b, by omega, 0, by omega, Or.inl ⟨by rw [ha0, slotAt_zero], ?_⟩⟩
    have hb1 : 1 ≤ b := by omega
    rw [slotAt_pos_eval c (m - b) (c - 1 - 0) (by omega) (by omega)]
    have h3 : c - 1 - 0 - 1 + ((c - 1) - (m - b)) = (b - 1) + m := by omega
    rw [h3, Nat.add_mod_right, Nat.mod_eq_of_lt (by omega)]
    omega
  · rcases Nat.eq_zero_or_pos b with hb0 | hbpos
    · -- b = 0: pair (a, 0) sits at positions (c-1, 0) in round m - a
      refine ⟨m - a, by omega, 0, by omega, Or.inr ⟨by rw [hb0, slotAt_zero], ?_⟩⟩
      rw [slotAt_pos_eval c (m - a) (c - 1 - 0) (by omega) (by omega)]
      have h3 : c - 1 - 0 - 1 + ((c - 1) - (m - a)) = (a - 1) + m := by omega
      rw [h3, Nat.add_mod_right, Nat.mod_eq_of_lt (by omega)]
      omega
    · -- a, b ≥ 1: both in the rotating tail
      set j := a - 1 with hj
      set k := b - 1 with hk
      have hjk : j ≠ k := by omega
      have hjm : j < m := by omega
      have hkm : k < m := by omega
      have hm3 : 3 ≤ m := by omega
      set X := 2 * m - 2 - j - k with hX
      set r := ((m + 1) / 2 * X) % m with hr
      have hrm : r < m := Nat.mod_lt _ hmpos
      -- 2r ≡ X (mod m)
      have h2r : 2 * r ≡ X [MOD m] := by
        calc 2 * r ≡ 2 * ((m + 1) / 2 * X) [MOD m] :=
              Nat.ModEq.mul_left 2 (Nat.mod_modEq _ m)
          _ = (m + 1) * X := by
              rw [← Nat.mul_assoc]
              congr 1
              omega
          _ ≡ 1 * X [MOD m] := Nat.ModEq.mul_right X (by
              exact Nat.add_mod_left m 1)
          _ = X := Nat.one_mul X
      set u := (j + r) % m with hu
      set v := (k + r) % m with hv
      have hum : u < m := Nat.mod_lt _ hmpos
      have hvm : v < m := Nat.mod_lt _ hmpos
      have huv : u ≠ v := by
        intro h
        have : j ≡ k [MOD m] := Nat.ModEq.add_right_cancel' r h
        have h1 : j % m = k % m := this
        rw [Nat.mod_eq_of_lt hjm, Nat.mod_eq_of_lt hkm] at h1
        exact hjk h1
      have hsum : u + v = m - 2 := by
        have hc : u + v ≡ m - 2 [MOD m] := by
          calc u + v ≡ (j + r) + (k + r) [MOD m] :=
                Nat.ModEq.add (Nat.mod_modEq _ m) (Nat.mod_modEq _ m)
            _ = j + k + 2 * r := by ring
            _ ≡ j + k + X [MOD m] := Nat.ModEq.add_left (j + k) h2r
            _ = (m - 2) + m := by omega
            _ ≡ m - 2 [MOD m] := by
                show ((m - 2) + m) % m = (m - 2) % m
                rw [Nat.add_mod_right]
        have h1 : (u + v) % m = (m - 2) % m := hc
        rw [show (m - 2) % m = m - 2 from Nat.mod_eq_of_lt (by omega)] at h1
        rcases Nat.lt_or_ge (u + v) m with hlt | hge
        · rw [Nat.mod_eq_of_lt hlt] at h1
          omega
        · rw [Nat.mod_eq_sub_mod hge, Nat.mod_eq_of_lt (by omega)] at h1
          omega
      have heva : slotAt c r (u + 1) = a := by
        rw [slotAt_pos_eval c r (u + 1) (by omega) (by omega)]
        have h3 : u + 1 - 1 + ((c - 1) - r) = (j + r) % m + (m - r) := by omega
        rw [h3, tail_slot_eval m r j hrm hjm]
        omega
      have hevb : slotAt c r (v + 1) = b := by
        rw [slotAt_pos_eval c r (v + 1) (by omega) (by omega)]
        have h3 : v + 1 - 1 + ((c - 1) - r) = (k + r) % m + (m - r) := by omega
        rw [h3, tail_slot_eval m r k hrm hkm]
        omega
      rcases Nat.lt_or_ge u v with huvlt | huvge
      · refine ⟨r, by omega, u + 1, by omega, Or.inl ⟨heva, ?_⟩⟩
        have h4 : c - 1 - (u + 1) = v + 1 := by omega
        rw [h4, hevb]
      · have huvgt : v < u := by omega
        refine ⟨r, by omega, v + 1, by omega, Or.inr ⟨hevb, ?_⟩⟩
        have h4 : c - 1 - (v + 1) = u + 1 := by omega
        rw [h4, heva]

theorem mem_allRoundSlotPairs {c : Nat} {el : Nat × Nat × Nat} :
    el ∈ allRoundSlotPairs c ↔ ∃ r, r < c - 1 ∧ ∃ i, i < c / 2 ∧
      el = (r, slotAt c r i, slotAt c r (c - 1 - i)) := by
  unfold allRoundSlotPairs roundSlotPairs
  simp only [List.mem_flatMap, List.mem_map, List.mem_range]
  constructor
  · rintro ⟨r, hr, ab, ⟨i, hi, hab⟩, hel⟩
    exact ⟨r, hr, i, hi, by rw [← hel, ← hab]⟩
  · rintro ⟨r, hr, i, hi, hel⟩
    exact ⟨r, hr, (slotAt c r i, slotAt c r (c - 1 - i)), ⟨i, hi, rfl⟩, hel.symm⟩

theorem allRoundSlotPairs_valid {c : Nat} (h2 : 2 ≤ c) (hce : c % 2 = 0)
    {el : Nat × Nat × Nat} (hel : el ∈ allRoundSlotPairs c) :
    el.1 < c - 1 ∧ el.2.1 < c ∧ el.2.2 < c ∧ el.2.1 ≠ el.2.2 := by
  obtain ⟨r, hr, i, hi, hel⟩ := mem_allRoundSlotPairs.mp hel
  subst hel
  refine ⟨hr, slotAt_lt c r i h2, slotAt_lt c r (c - 1 - i) h2, ?_⟩
  intro heq
  have := slotAt_inj c r i (c - 1 - i) h2 hr (by omega) (by omega) heq
  omega

theorem length_allRoundSlotPairs (c : Nat) :
    (allRoundSlotPairs c).length = (c - 1) * (c / 2) := by
  unfold allRoundSlotPairs
  rw [List.length_flatMap]
  simp only [Function.comp_def]
  have hmap : (List.range (c - 1)).map
      (fun r => ((roundSlotPairs c r).map (fun ab => (r, ab.1, ab.2))).length)
      = List.replicate (c - 1) (c / 2) := by
    refine List.eq_replicate_iff.mpr ⟨by simp, ?_⟩
    intro b hb
    obtain ⟨r, _, hrb⟩ := List.mem_map.mp hb
    rw [← hrb]
    simp [roundSlotPairs]
  rw [hmap, List.sum_replicate, smul_eq_mul]

/-- The multiset of unordered slot pairs the schedule produces. -/
def slotPairMultiset (c : Nat) : Multiset (Finset ℕ) :=
  ((allRoundSlotPairs c).map (fun el => ({el.2.1, el.2.2} : Finset ℕ)) : List (Finset ℕ))

theorem slotPairMultiset_eq (c : Nat) (h2 : 2 ≤ c) (hce : c % 2 = 0) :
    slotPairMultiset c = ((Finset.range c).powersetCard 2).val := by
  have hnd : ((Finset.range c).powersetCard 2).val.Nodup :=
    ((Finset.range c).powersetCard 2).nodup
  have hle : ((Finset.range c).powersetCard 2).val ≤ slotPairMultiset c := by
    rw [Multiset.le_iff_count]
    intro x
    by_cases hx : x ∈ ((Finset.range c).powersetCard 2).val
    · have hc1 : Multiset.count x ((Finset.range c).powersetCard 2).val = 1 :=
        Multiset.count_eq_one_of_mem hnd hx
      rw [hc1]
      rw [Multiset.one_le_count_iff_mem]
      have hx2 := Finset.mem_powersetCard.mp hx
      obtain ⟨a, b, hab, hxab⟩ := Finset.card_eq_two.mp hx2.2
      have hamem : a ∈ x := by
        rw [hxab]; exact Finset.mem_insert_self a {b}
      have hbmem : b ∈ x := by
        rw [hxab]; exact Finset.mem_insert_of_mem (Finset.mem_singleton_self b)
      have ha : a < c := by
        have := hx2.1 hamem
        simpa using this
      have hb : b < c := by
        have := hx2.1 hbmem
        simpa using this
      obtain ⟨r, hr, i, hi, hcase⟩ := exists_slot_pair c a b h2 hce ha hb hab
      have hmem : (r, slotAt c r i, slotAt c r (c - 1 - i)) ∈ allRoundSlotPairs c :=
        mem_allRoundSlotPairs.mpr ⟨r, hr, i, hi, rfl⟩
      rw [slotPairMultiset, Multiset.mem_coe, List.mem_map]
      refine ⟨(r, slotAt c r i, slotAt c r (c - 1 - i)), hmem, ?_⟩
      rcases hcase with ⟨h1, hb1⟩ | ⟨h1, hb1⟩
      · rw [hxab]; dsimp only; rw [h1, hb1]
      · rw [hxab]; dsimp only; rw [h1, hb1]; exact Finset.pair_comm b a
    · rw [Multiset.count_eq_zero_of_not_mem hx]
      omega
  have hcard : Multiset.card (slotPairMultiset c)
      ≤ Multiset.card ((Finset.range c).powersetCard 2).val := by
    have h1 : Multiset.card (slotPairMultiset c) = (c - 1) * (c / 2) := by
      rw [slotPairMultiset]
      rw [Multiset.coe_card, List.length_map, length_allRoundSlotPairs]
    have h2c : Multiset.card ((Finset.range c).powersetCard 2).val
        = c * (c - 1) / 2 := by
      rw [← Finset.card_def, Finset.card_powersetCard, Finset.card_range,
        Nat.choose_two_right]
    rw [h1, h2c]
    obtain ⟨t, ht⟩ : ∃ t, c = 2 * t := ⟨c / 2, by omega⟩
    subst ht
    rw [show 2 * t / 2 = t from by omega,
      show 2 * t * (2 * t - 1) = 2 * (t * (2 * t - 1)) from by ring,
      Nat.mul_div_cancel_left _ (show 0 < 2 from by norm_num)]
    exact le_of_eq (Nat.mul_comm _ _)
  exact (Multiset.eq_of_le_of_card_le hle hcard).symm

theorem countP_map_eq_count {α β : Type} [DecidableEq α] (f : β → α)
    (x : α) : ∀ l : List β,
    l.countP (fun el => decide (f el = x)) = (l.map f).count x := by
  intro l
  induction l with
  | nil => rfl
  | cons hd tl ih =>
    simp only [List.countP_cons, List.map_cons, List.count_cons, ih, beq_iff_eq,
      decide_eq_true_eq]

theorem countP_slotPair_eq_one (c a b : Nat) (h2 : 2 ≤ c) (hce : c % 2 = 0)
    (ha : a < c) (hb : b < c) (hab : a ≠ b) :
    (allRoundSlotPairs c).countP
      (fun el => decide (({el.2.1, el.2.2} : Finset ℕ) = {a, b})) = 1 := by
  have hme := slotPairMultiset_eq c h2 hce
  have hmem : ({a, b} : Finset ℕ) ∈ (Finset.range c).powersetCard 2 := by
    rw [Finset.mem_powersetCard]
    constructor
    · intro z hz
      simp only [Finset.mem_insert, Finset.mem_singleton] at hz
      rcases hz with hz | hz
      · rw [hz]; exact Finset.mem_range.mpr ha
      · rw [hz]; exact Finset.mem_range.mpr hb
    · exact Finset.card_pair hab
  have h1 : Multiset.count ({a, b} : Finset ℕ)
      ((Finset.range c).powersetCard 2).val = 1 :=
    Multiset.count_eq_one_of_mem ((Finset.range c).powersetCard 2).nodup hmem
  rw [← hme, slotPairMultiset, Multiset.coe_count] at h1
  rw [countP_map_eq_count]
  exact h1

theorem countP_slotPair_avoid (c : Nat) (h2 : 2 ≤ c) (hce : c % 2 = 0) :
    (allRoundSlotPairs c).countP
      (fun el => decide ((c - 1) ∉ ({el.2.1, el.2.2} : Finset ℕ)))
      = (c - 1) * (c - 2) / 2 := by
  have hme := slotPairMultiset_eq c h2 hce
  have hfil : ((Finset.range c).powersetCard 2).filter
      (fun z => (c - 1) ∉ z) = (Finset.range (c - 1)).powersetCard 2 := by
    ext z
    rw [Finset.mem_filter, Finset.mem_powersetCard, Finset.mem_powersetCard]
    constructor
    · rintro ⟨⟨hsub, hcard⟩, hnot⟩
      refine ⟨?_, hcard⟩
      intro w hw
      have h1 := Finset.mem_range.mp (hsub hw)
      have h2w : w ≠ c - 1 := by
        intro hwc
        exact hnot (hwc ▸ hw)
      exact Finset.mem_range.mpr (by omega)
    · rintro ⟨hsub, hcard⟩
      refine ⟨⟨?_, hcard⟩, ?_⟩
      · intro w hw
        have h1 := Finset.mem_range.mp (hsub hw)
        exact Finset.mem_range.mpr (by omega)
      · intro hmem
        have h1 := Finset.mem_range.mp (hsub hmem)
        omega
  have h3 : Multiset.countP (fun z => (c - 1) ∉ z)
      ((Finset.range c).powersetCard 2).val = (c - 1) * (c - 2) / 2 := by
    rw [Multiset.countP_eq_card_filter, ← Finset.filter_val, hfil,
      ← Finset.card_def, Finset.card_powersetCard, Finset.card_range,
      Nat.choose_two_right, show c - 1 - 1 = c - 2 from by omega]
  rw [← hme, slotPairMultiset, Multiset.coe_countP, List.countP_map] at h3
  exact h3

/-- Modelled from the spec: the round-robin scheduler (circle method).
Fix slot 0; rotate the other slots one position per round (the same
right-rotation `getPlayerWithBye` uses); pair position `i` with position
`count - 1 - i`; for an odd entrant count a synthetic bye slot (`none`)
is appended and pairs touching it produce no match.  Fewer than 2
entrants yields the empty schedule. -/
def generateRoundRobinSchedule (ids : List String) : List (String × String × Nat) :=
  if ids.length < 2 then []
  else
    let slots : List (Option String) :=
      ids.map some ++ (if ids.length % 2 = 1 then [none] else [])
    (allRoundSlotPairs slots.length).filterMap (fun el =>
      match slots.getD el.2.1 none, slots.getD el.2.2 none with
      | some u, some v => some (u, v, el.1)
      | _, _ => none)

theorem countP_filterMap_eq {α β : Type} (f : α → Option β) (p : β → Bool) :
    ∀ l : List α, (l.filterMap f).countP p
      = l.countP (fun a => ((f a).map p).getD false) := by
  intro l
  induction l with
  | nil => rfl
  | cons hd tl ih =>
    cases hfa : f hd with
    | none => simp [List.filterMap_cons, hfa, List.countP_cons, ih]
    | some b => simp [List.filterMap_cons, hfa, List.countP_cons, ih]

theorem length_filterMap_eq {α β : Type} (f : α → Option β) :
    ∀ l : List α, (l.filterMap f).length = l.countP (fun a => (f a).isSome) := by
  intro l
  induction l with
  | nil => rfl
  | cons hd tl ih =>
    cases hfa : f hd with
    | none => simp [List.filterMap_cons, hfa, List.countP_cons, ih]
    | some b => simp [List.filterMap_cons, hfa, List.countP_cons, ih]

theorem map_some_getD (ids : List String) (s : Nat) (hs : s < ids.length) :
    (ids.map some).getD s none = some (ids.getD s "") := by
  rw [List.getD_eq_getElem _ _ (by simpa using hs), List.getElem_map,
    List.getD_eq_getElem _ _ hs]

theorem slots_getD_lt (ids : List String) (tail : List (Option String))
    (s : Nat) (hs : s < ids.length) :
    (ids.map some ++ tail).getD s none = some (ids.getD s "") := by
  rw [List.getD_append _ _ _ _ (by simpa using hs), map_some_getD ids s hs]

theorem slots_getD_ge (ids : List String) (tail : List (Option String))
    (htail : ∀ k, tail.getD k none = none) (s : Nat) (hs : ids.length ≤ s) :
    (ids.map some ++ tail).getD s none = none := by
  rw [List.getD_append_right _ _ _ _ (by simpa using hs)]
  exact htail _

theorem pair_finset_eq_iff {s1 s2 a b : ℕ} (h12 : s1 ≠ s2) :
    ({s1, s2} : Finset ℕ) = {a, b} ↔
      ((s1 = a ∧ s2 = b) ∨ (s1 = b ∧ s2 = a)) := by
  constructor
  · intro h
    have h1 : s1 ∈ ({a, b} : Finset ℕ) := by
      rw [← h]; exact Finset.mem_insert_self s1 {s2}
    have h2 : s2 ∈ ({a, b} : Finset ℕ) := by
      rw [← h]; exact Finset.mem_insert_of_mem (Finset.mem_singleton_self s2)
    simp only [Finset.mem_insert, Finset.mem_singleton] at h1 h2
    rcases h1 with h1 | h1 <;> rcases h2 with h2 | h2
    · exact absurd (h1.trans h2.symm) h12
    · exact Or.inl ⟨h1, h2⟩
    · exact Or.inr ⟨h1, h2⟩
    · exact absurd (h1.trans h2.symm) h12
  · intro h
    rcases h with ⟨h1, h2⟩ | ⟨h1, h2⟩
    · rw [h1, h2]
    · rw [h1, h2]; exact Finset.pair_comm b a

theorem pred_decide_eq {ids : List String} (hnd : ids.Nodup) {a b : Nat}
    (ha : a < ids.length) (hb : b < ids.length)
    {s1 s2 : Nat} (hs1 : s1 < ids.length) (hs2 : s2 < ids.length) (h12 : s1 ≠ s2) :
    (decide ((ids.getD s1 "" = ids[a] ∧ ids.getD s2 "" = ids[b])
        ∨ (ids.getD s1 "" = ids[b] ∧ ids.getD s2 "" = ids[a])))
      = decide (({s1, s2} : Finset ℕ) = ({a, b} : Finset ℕ)) := by
  apply decide_eq_decide.mpr
  rw [List.getD_eq_getElem _ _ hs1, List.getD_eq_getElem _ _ hs2]
  rw [hnd.getElem_inj_iff, hnd.getElem_inj_iff, hnd.getElem_inj_iff,
    hnd.getElem_inj_iff]
  exact (pair_finset_eq_iff h12).symm

/-- Claim C2 (scheduler modelled from the spec, the source file being
absent): for fewer than 2 entrants the schedule is empty; for N ≥ 2
distinct entrants it has exactly N(N-1)/2 matches and every unordered
pair of entrants appears in exactly one match. -/
theorem c2_round_robin_completeness (ids : List String) (hnd : ids.Nodup) :
    (ids.length < 2 → generateRoundRobinSchedule ids = [])
    ∧ (2 ≤ ids.length →
        (generateRoundRobinSchedule ids).length
            = ids.length * (ids.length - 1) / 2
        ∧ ∀ x ∈ ids, ∀ y ∈ ids, x ≠ y →
            (generateRoundRobinSchedule ids).countP (fun t =>
              decide ((t.1 = x ∧ t.2.1 = y) ∨ (t.1 = y ∧ t.2.1 = x))) = 1) := by
  constructor
  · intro h
    unfold generateRoundRobinSchedule
    rw [if_pos h]
  · intro h2
    by_cases hpar : ids.length % 2 = 1
    · -- odd entrant count: a bye slot is appended
      have htail : ∀ k, ([none] : List (Option String)).getD k none = none := by
        intro k
        cases k with
        | zero => rfl
        | succ k2 => rfl
      have hsched : generateRoundRobinSchedule ids
          = (allRoundSlotPairs (ids.length + 1)).filterMap (fun el =>
              match (ids.map some ++ [none]).getD el.2.1 none,
                    (ids.map some ++ [none]).getD el.2.2 none with
              | some u, some v => some (u, v, el.1)
              | _, _ => none) := by
        simp only [generateRoundRobinSchedule,
          if_neg (show ¬ ids.length < 2 by omega), if_pos hpar,
          List.length_append, List.length_map, List.length_cons,
          List.length_nil]
      constructor
      · rw [hsched, length_filterMap_eq]
        have hcg : ∀ el ∈ allRoundSlotPairs (ids.length + 1),
            ((match (ids.map some ++ [none]).getD el.2.1 none,
                    (ids.map some ++ [none]).getD el.2.2 none with
              | some u, some v => some (u, v, el.1)
              | _, _ => none) : Option (String × String × Nat)).isSome
            = decide ((ids.length + 1 - 1) ∉ ({el.2.1, el.2.2} : Finset ℕ)) := by
          intro el hel
          obtain ⟨hr, hv1, hv2, h12⟩ :=
            allRoundSlotPairs_valid (by omega) (by omega) hel
          by_cases hlt1 : el.2.1 < ids.length
          · by_cases hlt2 : el.2.2 < ids.length
            · rw [slots_getD_lt ids [none] el.2.1 hlt1,
                slots_getD_lt ids [none] el.2.2 hlt2]
              have hnot : (ids.length + 1 - 1) ∉ ({el.2.1, el.2.2} : Finset ℕ) := by
                simp only [Finset.mem_insert, Finset.mem_singleton]
                omega
              rw [decide_eq_true hnot]
              rfl
            · rw [slots_getD_ge ids [none] htail el.2.2 (by omega)]
              have hmem : (ids.length + 1 - 1) ∈ ({el.2.1, el.2.2} : Finset ℕ) := by
                simp only [Finset.mem_insert, Finset.mem_singleton]
                omega
              rw [decide_eq_false (by intro hcon; exact hcon hmem)]
              cases hgd : (ids.map some ++ [none]).getD el.2.1 none <;> rfl
          · rw [slots_getD_ge ids [none] htail el.2.1 (by omega)]
            have hmem : (ids.length + 1 - 1) ∈ ({el.2.1, el.2.2} : Finset ℕ) := by
              simp only [Finset.mem_insert, Finset.mem_singleton]
              omega
            rw [decide_eq_false (by intro hcon; exact hcon hmem)]
            rfl
        calc ((allRoundSlotPairs (ids.length + 1)).countP _)
            = (allRoundSlotPairs (ids.length + 1)).countP
                (fun el => decide ((ids.length + 1 - 1)
                  ∉ ({el.2.1, el.2.2} : Finset ℕ))) := List.countP_congr (fun el hel => by rw [hcg el hel])
          _ = (ids.length + 1 - 1) * (ids.length + 1 - 2) / 2 :=
              countP_slotPair_avoid (ids.length + 1) (by omega) (by omega)
          _ = ids.length * (ids.length - 1) / 2 := by
              rw [show ids.length + 1 - 1 = ids.length from rfl,
                show ids.length + 1 - 2 = ids.length - 1 from by omega]
      · intro x hx y hy hxy
        obtain ⟨a, ha, hxa⟩ := List.getElem_of_mem hx
        obtain ⟨b, hb, hyb⟩ := List.getElem_of_mem hy
        have hab : a ≠ b := by
          intro h
          subst h
          rw [hxa] at hyb
          exact hxy hyb
        rw [hsched, countP_filterMap_eq, ← hxa, ← hyb]
        have hcg : ∀ el ∈ allRoundSlotPairs (ids.length + 1),
            ((((match (ids.map some ++ [none]).getD el.2.1 none,
                    (ids.map some ++ [none]).getD el.2.2 none with
              | some u, some v => some (u, v, el.1)
              | _, _ => none) : Option (String × String × Nat)).map (fun t =>
                decide ((t.1 = ids[a] ∧ t.2.1 = ids[b])
                  ∨ (t.1 = ids[b] ∧ t.2.1 = ids[a])))).getD false)
            = decide (({el.2.1, el.2.2} : Finset ℕ) = ({a, b} : Finset ℕ)) := by
          intro el hel
          obtain ⟨hr, hv1, hv2, h12⟩ :=
            allRoundSlotPairs_valid (by omega) (by omega) hel
          by_cases hlt1 : el.2.1 < ids.length
          · by_cases hlt2 : el.2.2 < ids.length
            · rw [slots_getD_lt ids [none] el.2.1 hlt1,
                slots_getD_lt ids [none] el.2.2 hlt2]
              exact pred_decide_eq hnd ha hb hlt1 hlt2 h12
            · rw [slots_getD_ge ids [none] htail el.2.2 (by omega)]
              have hne : ¬ (({el.2.1, el.2.2} : Finset ℕ) = ({a, b} : Finset ℕ)) := by
                intro hset
                have hmem : el.2.2 ∈ ({a, b} : Finset ℕ) := by
                  rw [← hset]
                  exact Finset.mem_insert_of_mem (Finset.mem_singleton_self _)
                simp only [Finset.mem_insert, Finset.mem_singleton] at hmem
                omega
              rw [decide_eq_false hne]
              cases hgd : (ids.map some ++ [none]).getD el.2.1 none <;> rfl
          · rw [slots_getD_ge ids [none] htail el.2.1 (by omega)]
            have hne : ¬ (({el.2.1, el.2.2} : Finset ℕ) = ({a, b} : Finset ℕ)) := by
              intro hset
              have hmem : el.2.1 ∈ ({a, b} : Finset ℕ) := by
                rw [← hset]
                exact Finset.mem_insert_self _ _
              simp only [Finset.mem_insert, Finset.mem_singleton] at hmem
              omega
            rw [decide_eq_false hne]
            rfl
        calc ((allRoundSlotPairs (ids.length + 1)).countP _)
            = (allRoundSlotPairs (ids.length + 1)).countP
                (fun el => decide (({el.2.1, el.2.2} : Finset ℕ)
                  = ({a, b} : Finset ℕ))) := List.countP_congr (fun el hel => by rw [hcg el hel])
          _ = 1 := countP_slotPair_eq_one (ids.length + 1) a b (by omega)
              (by omega) (by omega) (by omega) hab
    · -- even entrant count
      have hce : ids.length % 2 = 0 := by omega
      have hsched : generateRoundRobinSchedule ids
          = (allRoundSlotPairs ids.length).filterMap (fun el =>
              match (ids.map some).getD el.2.1 none,
                    (ids.map some).getD el.2.2 none with
              | some u, some v => some (u, v, el.1)
              | _, _ => none) := by
        simp only [generateRoundRobinSchedule,
          if_neg (show ¬ ids.length < 2 by omega), if_neg hpar,
          List.append_nil, List.length_map]
      constructor
      · rw [hsched, length_filterMap_eq]
        have hall : ∀ el ∈ allRoundSlotPairs ids.length,
            ((match (ids.map some).getD el.2.1 none,
                    (ids.map some).getD el.2.2 none with
              | some u, some v => some (u, v, el.1)
              | _, _ => none) : Option (String × String × Nat)).isSome = true := by
          intro el hel
          obtain ⟨hr, hv1, hv2, h12⟩ := allRoundSlotPairs_valid h2 hce hel
          rw [map_some_getD ids el.2.1 hv1, map_some_getD ids el.2.2 hv2]
          rfl
        rw [List.countP_eq_length.mpr hall, length_allRoundSlotPairs]
        obtain ⟨t, ht⟩ : ∃ t, ids.length = 2 * t := ⟨ids.length / 2, by omega⟩
        rw [ht, show 2 * t / 2 = t from by omega,
          show 2 * t * (2 * t - 1) = 2 * (t * (2 * t - 1)) from by ring,
          Nat.mul_div_cancel_left _ (show 0 < 2 from by norm_num)]
        exact Nat.mul_comm _ _
      · intro x hx y hy hxy
        obtain ⟨a, ha, hxa⟩ := List.getElem_of_mem hx
        obtain ⟨b, hb, hyb⟩ := List.getElem_of_mem hy
        have hab : a ≠ b := by
          intro h
          subst h
          rw [hxa] at hyb
          exact hxy hyb
        rw [hsched, countP_filterMap_eq, ← hxa, ← hyb]
        have hcg : ∀ el ∈ allRoundSlotPairs ids.length,
            ((((match (ids.map some).getD el.2.1 none,
                    (ids.map some).getD el.2.2 none with
              | some u, some v => some (u, v, el.1)
              | _, _ => none) : Option (String × String × Nat)).map (fun t =>
                decide ((t.1 = ids[a] ∧ t.2.1 = ids[b])
                  ∨ (t.1 = ids[b] ∧ t.2.1 = ids[a])))).getD false)
            = decide (({el.2.1, el.2.2} : Finset ℕ) = ({a, b} : Finset ℕ)) := by
          intro el hel
          obtain ⟨hr, hv1, hv2, h12⟩ := allRoundSlotPairs_valid h2 hce hel
          rw [map_some_getD ids el.2.1 hv1, map_some_getD ids el.2.2 hv2]
          exact pred_decide_eq hnd ha hb hv1 hv2 h12
        calc ((allRoundSlotPairs ids.length).countP _)
            = (allRoundSlotPairs ids.length).countP
                (fun el => decide (({el.2.1, el.2.2} : Finset ℕ)
                  = ({a, b} : Finset ℕ))) := List.countP_congr (fun el hel => by rw [hcg el hel])
          _ = 1 := countP_slotPair_eq_one ids.length a b h2 hce ha hb hab


/-- Witness for `c2_round_robin_completeness`: three distinct entrants. -/
theorem c2_round_robin_completeness_witness :
    (["a", "b", "c"] : List String).Nodup ∧
    (((["a", "b", "c"] : List String).length < 2 →
        generateRoundRobinSchedule ["a", "b", "c"] = [])
     ∧ (2 ≤ (["a", "b", "c"] : List String).length →
        (generateRoundRobinSchedule ["a", "b", "c"]).length
            = (["a", "b", "c"] : List String).length
              * ((["a", "b", "c"] : List String).length - 1) / 2
        ∧ ∀ x ∈ (["a", "b", "c"] : List String),
            ∀ y ∈ (["a", "b", "c"] : List String), x ≠ y →
            (generateRoundRobinSchedule ["a", "b", "c"]).countP (fun t =>
              decide ((t.1 = x ∧ t.2.1 = y) ∨ (t.1 = y ∧ t.2.1 = x))) = 1)) :=
  ⟨by decide, c2_round_robin_completeness ["a", "b", "c"] (by decide)⟩

end FC26